import Mathlib

/-!
# configurd: the live-debug patch / rollback engine (`dev.go`)

A shallow embedding of `dev.go`.  Every call that leaves the package (the
cluster, remote exec and copy, local commands, the template renderer, the
asset store, the network, the clock, the logger) is an `Action`.  A run
threads a `World` through the code: the state of everything outside the
program, and the trace of the actions issued so far, oldest first.  What an
action returns, and how it changes the outside state, is decided by a
`Collab` oracle, which the theorems quantify over.

Go values: `string` is `String`, `int` and `time.Duration` are `Int` (the
only arithmetic on an `int` is `tries+1`, wrapped to 64 bits), `error` is
`Option String` (`none` is `nil`, `some m` an error whose text is `m`), a
`map[string]string` is an association list read with `List.lookup`, and a
`(string, error)` result is `String × Option String`.
-/

namespace Configurd

/-! ## Data model -/

/-- Go type `v1.Container`, the fields read by `dev.go`. -/
structure Container where
  Name : String
  Args : List String
  deriving DecidableEq, Repr

/-- Go type `v1.PodSpec`. -/
structure PodSpec where
  Containers : List Container
  deriving DecidableEq, Repr

/-- Go type `metav1.ObjectMeta`. -/
structure ObjectMeta where
  Name : String
  Namespace : String
  Labels : List (String × String)
  deriving DecidableEq, Repr

/-- Go type `v1.PodTemplateSpec`. -/
structure PodTemplateSpec where
  ObjectMeta : ObjectMeta
  Spec : PodSpec
  deriving DecidableEq, Repr

/-- Go type `metav1.LabelSelector`. -/
structure LabelSelector where
  MatchLabels : List (String × String)
  deriving DecidableEq, Repr

/-- Go type `v1.DeploymentSpec`. -/
structure DeploymentSpec where
  Selector : LabelSelector
  Template : PodTemplateSpec
  deriving DecidableEq, Repr

/-- Go type `v1.Deployment`; `deployment.Name` is `deployment.ObjectMeta.Name`. -/
structure Deployment where
  ObjectMeta : ObjectMeta
  Spec : DeploymentSpec
  deriving DecidableEq, Repr

/-- Go type `patchValues`. -/
structure patchValues where
  PatchedLabelName : String
  ContainerName : String
  MountPath : String
  HostPath : String
  Image : String
  deriving DecidableEq, Repr

/-- Go type `launchArgs`. -/
structure launchArgs where
  Name : String
  Request : String
  Type_ : String
  Mode : String
  RemotePath : String
  Port : Int
  Host : String
  Trace : String
  LogOutput : String
  ShowLog : Bool
  deriving DecidableEq, Repr

/-- Constants of the package declared outside `dev.go`, and the standard
library functions `dev.go` calls, taken as parameters. -/
structure Lib where
  /-- Constant `defaultPatchedLabel`. -/
  defaultPatchedLabel : String
  /-- Constant `devDeploymentPatchFile`. -/
  devDeploymentPatchFile : String
  /-- Constant `conditionContainersReady`. -/
  conditionContainersReady : String
  /-- Constant `defaultWaitTimeout`. -/
  defaultWaitTimeout : String
  /-- Value of `os.TempDir()`. -/
  tempDir : String
  /-- Value of `runtime.GOOS`. -/
  goos : String
  /-- Function `path.Join`. -/
  pathJoin : List String → String
  /-- The `%q` verb of `fmt`. -/
  quote : String → String
  /-- Function `json.Marshal` on a `launchArgs`. -/
  jsonMarshal : launchArgs → Except String String
  /-- Function `yaml.Unmarshal` into a `[]string`. -/
  yamlUnmarshal : String → Except String (List String)

/-- The command builders of the package (`command`, `execPod`, ...), whose
source is outside `dev.go`: each is kept as the call with its arguments. -/
inductive Cmd where
  | command (args : List String) (cwd : Option String) (env : List String)
  | deleteService (deployment : Deployment) (pod : String)
  | execPod (pod container ns : String) (cmd : List String)
  | copyToPod (pod container ns source destination : String)
  | exposePod (ns pod host : String) (port : Int)
  | waitForRollout (name ns timeout : String)
  | patchDeployment (patch name ns : String)
  | rollbackDeployment (name ns : String)
  | waitForPodState (ns pod condition timeout : String)
  | execShell (resource path ns : String)
  deriving DecidableEq, Repr

/-- One call that leaves `dev.go`. -/
inductive Action where
  /-- A line written to the logger, `l.Infof` or `l.Warnf`. -/
  | log (level msg : String)
  /-- A command run to its end, `cmd.run()`. -/
  | run (c : Cmd)
  /-- The start of the process of a command that carries a post-start hook. -/
  | start (c : Cmd)
  /-- The wait for the end of a process started by `start`. -/
  | wait (c : Cmd)
  | restoreAssets (dir name : String)
  | getMostRecentPodBySelectors (labels : List (String × String)) (ns : String)
  | generateYaml (path : String) (data : List String)
  | parseFiles (path : String)
  | executeTemplate (path : String) (values : patchValues)
  | dialTimeout (address : String) (timeout : Int)
  | getState
  | connClose
  | sleep (d : Int)
  | signalNotify
  /-- An invocation `f(i, tries)` of a unit of work that is not further described. -/
  | call (i tries : Int)
  deriving DecidableEq, Repr

/-- The collaborators: what a call returns and how it changes the outside state. -/
structure Collab (σ : Type) where
  respond : Action → σ → (String × Option String) × σ

/-- The outside state and the trace of the actions issued so far, oldest first. -/
structure World (σ : Type) where
  state : σ
  trace : List Action

variable {σ : Type}

/-- Issue an action: record it, and let the collaborators answer. -/
def perform (c : Collab σ) (a : Action) (w : World σ) : (String × Option String) × World σ :=
  ((c.respond a w.state).1, { state := (c.respond a w.state).2, trace := w.trace ++ [a] })

/-- The logger: `l.Infof`, `l.Warnf`. -/
def logf (level msg : String) (w : World σ) : World σ :=
  { w with trace := w.trace ++ [Action.log level msg] }

/-- Constant `time.Second`, in nanoseconds. -/
def timeSecond : Int := 1000000000

/-- Function `time.Sleep`. -/
def timeSleep (c : Collab σ) (d : Int) (w : World σ) : World σ :=
  (perform c (Action.sleep d) w).2

/-- Two's complement wrap of a 64-bit Go `int`. -/
def wrapInt (x : Int) : Int :=
  (x + 9223372036854775808) % 18446744073709551616 - 9223372036854775808

/-- The values `lo, lo+1, ...`, `m` of them. -/
def countUp (lo : Int) : Nat → List Int
  | 0 => []
  | m + 1 => lo :: countUp (lo + 1) m

/-- The values `i` takes in `for i := lo; i < hi; i++`. -/
def forRange (lo hi : Int) : List Int :=
  countUp lo (hi - lo).toNat

/-! ## The retry primitive -/

/-- The loop of `tryCall` over the remaining values of `i`; `err` is the
variable `err`. -/
def tryCallLoop (c : Collab σ) (f : Int → Int → World σ → Option String × World σ)
    (tries : Int) : List Int → Option String → World σ → Option String × World σ
  | [], err, w => (err, w)
  | i :: rest, _, w =>
    match (f i tries w).1 with
    | none => (none, (f i tries w).2)
    | some e => tryCallLoop c f tries rest (some e) (timeSleep c timeSecond (f i tries w).2)

/-- Function `tryCall` (dev.go 460-470). -/
def tryCall (c : Collab σ) (f : Int → Int → World σ → Option String × World σ)
    (tries : Int) (sleep : Int) (w : World σ) : Option String × World σ :=
  let _ := sleep
  tryCallLoop c f tries (forRange 1 (wrapInt (tries + 1))) none w

/-- A unit of work answered by the collaborators: each invocation is the
action `call i tries`. -/
def unitOfWork (c : Collab σ) : Int → Int → World σ → Option String × World σ :=
  fun i tries w => ((perform c (Action.call i tries) w).1.2, (perform c (Action.call i tries) w).2)

/-- The invocations of the unit of work in a trace, in order: attempt index and maximum. -/
def callsOf : List Action → List (Int × Int)
  | [] => []
  | Action.call i tries :: t => (i, tries) :: callsOf t
  | _ :: t => callsOf t

/-- Method `run` of a command that carries no hook. -/
def run (c : Collab σ) (cmd : Cmd) (w : World σ) : (String × Option String) × World σ :=
  perform c (Action.run cmd) w

/-- Modelled from the spec: method `run` of a command that carries a
post-start hook; the command runner is outside `dev.go`.  The spec has the hook
"fired after the remote process starts", its end "does not affect the blocking
call's lifetime", and a failure of the readiness poll "surfaced as a final
error": the process is started, the hook runs, the end of the process is
awaited, and a failure of the hook is the error of the run. -/
def runPostStart (c : Collab σ) (cmd : Cmd) (hook : World σ → Option String × World σ)
    (w : World σ) : (String × Option String) × World σ :=
  let r := perform c (Action.start cmd) w
  match r.1.2 with
  | some err => ((r.1.1, some err), r.2)
  | none =>
    let h := hook r.2
    let e := perform c (Action.wait cmd) h.2
    match h.1 with
    | some err => (("", some err), e.2)
    | none => e

/-- Modelled from the spec: method `run` of a command that carries a post-end
hook; the command runner is outside `dev.go`.  The spec has the hook "fired
after (the process) ends": the command runs to its end, then the hook runs,
and a failure of the hook is the error of the run. -/
def runPostEnd (c : Collab σ) (cmd : Cmd) (hook : World σ → Option String × World σ)
    (w : World σ) : (String × Option String) × World σ :=
  let r := perform c (Action.run cmd) w
  let h := hook r.2
  match h.1 with
  | some err => (("", some err), h.2)
  | none => (r.1, h.2)

/-! ## `dev.go` -/

/-- Function `getMountPath` (dev.go 335-337). -/
def getMountPath (name : String) : String :=
  "/" ++ name ++ "-mount"

/-- Function `newPatchValues` (dev.go 31-39). -/
def newPatchValues (lib : Lib) (deployment container hostPath : String) : patchValues :=
  { PatchedLabelName := lib.defaultPatchedLabel
    ContainerName := container
    MountPath := getMountPath deployment
    HostPath := hostPath
    Image := "dummy:latest" }

/-- Function `newLaunchArgs` (dev.go 54-67). -/
def newLaunchArgs (pod host : String) (port : Int) : launchArgs :=
  { Host := host
    Name := "delve-" ++ pod
    Port := port
    Request := "attach"
    Type_ := "go"
    Mode := "remote"
    RemotePath := "$\x7bworkspaceFolder\x7d"
    Trace := ""
    LogOutput := ""
    ShowLog := false }

/-- Method `toJson` (dev.go 69-75). -/
def toJson (lib : Lib) (la : launchArgs) : String × Option String :=
  match lib.jsonMarshal la with
  | Except.error err => ("", some err)
  | Except.ok bytes => (bytes, none)

/-- Function `deploymentIsPatched` (dev.go 272-275). -/
def deploymentIsPatched (lib : Lib) (deployment : Deployment) : Bool :=
  match deployment.Spec.Template.ObjectMeta.Labels.lookup lib.defaultPatchedLabel with
  | some _ => true
  | none => false

/-- Function `stringInSlice` (dev.go 326-333). -/
def stringInSlice (a : String) : List String → Bool
  | [] => false
  | b :: list => if b = a then true else stringInSlice a list

/-- Function `strings.Join` of the Go standard library. -/
def stringsJoin : List String → String → String
  | [], _ => ""
  | [a], _ => a
  | a :: b :: rest, sep => a ++ sep ++ stringsJoin (b :: rest) sep

/-- Function `validateResource` (dev.go 277-282). -/
def validateResource (resourceType resource : String) (available : List String) : Option String :=
  if !stringInSlice resource available then
    some (resourceType ++ " " ++ resource ++ " not found, available: " ++ stringsJoin available ", ")
  else
    none

/-- Function `renderTemplate` (dev.go 313-324). -/
def renderTemplate (c : Collab σ) (path : String) (values : patchValues) (w : World σ) :
    (String × Option String) × World σ :=
  let tpl := perform c (Action.parseFiles path) w
  match tpl.1.2 with
  | some err => (("", some err), tpl.2)
  | none =>
    let buf := perform c (Action.executeTemplate path values) tpl.2
    match buf.1.2 with
    | some err => (("", some err), buf.2)
    | none => ((buf.1.1, none), buf.2)

/-- Function `buildDummy` (dev.go 339-346). -/
def buildDummy (c : Collab σ) (image tag path : String) (w : World σ) :
    (String × Option String) × World σ :=
  let cmd := ["docker", "build", ".", "--build-arg", "IMAGE=" ++ image ++ ":" ++ tag,
    "-t", "dummy:latest"]
  run c (Cmd.command cmd (some path) []) w

/-- Function `debugBuild` (dev.go 348-355). -/
def debugBuild (c : Collab σ) (input output : String) (env : List String) (w : World σ) :
    (String × Option String) × World σ :=
  let cmd := ["go", "build", "-gcflags=\"all=-N -l\"", "-o", output, input]
  run c (Cmd.command cmd none env) w

/-- Function `getArgsFromPod` (dev.go 357-367). -/
def getArgsFromPod (lib : Lib) (c : Collab σ) (ns pod container : String) (w : World σ) :
    (List String × Option String) × World σ :=
  let r := run c (Cmd.execPod pod container ns ["cat", "/args.yaml"]) w
  match r.1.2 with
  | some err => (([], some err), r.2)
  | none =>
    match lib.yamlUnmarshal r.1.1 with
    | Except.error err => (([], some err), r.2)
    | Except.ok args => ((args, none), r.2)

/-- The loop of `copyArgsToPod` over the containers. -/
def findArgs (container : String) : List Container → List String
  | [] => []
  | ct :: rest => if ct.Name = container then ct.Args else findArgs container rest

/-- Function `copyArgsToPod` (dev.go 369-388). -/
def copyArgsToPod (lib : Lib) (c : Collab σ) (deployment : Deployment) (pod container : String)
    (w : World σ) : Option String × World σ :=
  let args := findArgs container deployment.Spec.Template.Spec.Containers
  let argsSource := lib.pathJoin [lib.tempDir, "args.yaml"]
  let g := perform c (Action.generateYaml argsSource args) w
  match g.1.2 with
  | some err => (some err, g.2)
  | none =>
    let argsDestination := "/args.yaml"
    let r := run c (Cmd.copyToPod pod container deployment.ObjectMeta.Namespace argsSource
      argsDestination) g.2
    match r.1.2 with
    | some err => (some err, r.2)
    | none => (none, r.2)

/-- Function `signalCapture` (dev.go 390-396): the watcher is registered; what
it logs on a signal is not part of the sequential run. -/
def signalCapture (c : Collab σ) (w : World σ) : World σ :=
  (perform c Action.signalNotify w).2

/-- Function `checkDelveServer` (dev.go 398-410); the deferred `conn.Close()`
runs on both returns that follow the dial. -/
def checkDelveServer (c : Collab σ) (host : String) (port : Int) (timeout : Int) (w : World σ) :
    Option String × World σ :=
  let conn := perform c (Action.dialTimeout (host ++ ":" ++ toString port) timeout) w
  match conn.1.2 with
  | some err => (some err, conn.2)
  | none =>
    let st := perform c Action.getState conn.2
    match st.1.2 with
    | some err => (some err, (perform c Action.connClose st.2).2)
    | none => (none, (perform c Action.connClose st.2).2)

/-- Function `runOpen` (dev.go 412-425). -/
def runOpen (lib : Lib) (c : Collab σ) (path : String) (w : World σ) :
    (String × Option String) × World σ :=
  if lib.goos = "linux" then run c (Cmd.command ["xdg-open", path] none []) w
  else if lib.goos = "windows" then
    run c (Cmd.command ["rundll32", "url.dll,FileProtocolHandler", path] none []) w
  else if lib.goos = "darwin" then run c (Cmd.command ["open", path] none []) w
  else (("", some "unsupported platform"), w)

/-- The unit of work of `tryDelveServer` (dev.go 428-431). -/
def delveServerUnit (c : Collab σ) (host : String) (port : Int) :
    Int → Int → World σ → Option String × World σ :=
  fun i max w =>
    checkDelveServer c host port (1 * timeSecond)
      (logf "info" ("checking delve connection on " ++ host ++ ":" ++ toString port ++ " ("
        ++ toString i ++ "/" ++ toString max ++ ")") w)

/-- Function `tryDelveServer` (dev.go 427-437). -/
def tryDelveServer (c : Collab σ) (host : String) (port tries : Int) (sleep : Int)
    (w : World σ) : Option String × World σ :=
  let r := tryCall c (delveServerUnit c host port) tries sleep w
  match r.1 with
  | some err => (some err, r.2)
  | none => (none, logf "info" ("delve server listening on " ++ host ++ ":" ++ toString port) r.2)

/-- The unit of work of `launchVscode` (dev.go 441-445). -/
def vscodeStatusUnit (c : Collab σ) : Int → Int → World σ → Option String × World σ :=
  fun i max w =>
    let r := run c (Cmd.command ["code", "-s"] none [])
      (logf "info" ("waiting for vscode status (" ++ toString i ++ "/" ++ toString max ++ ")") w)
    (r.1.2, r.2)

/-- Function `launchVscode` (dev.go 439-458). -/
def launchVscode (lib : Lib) (c : Collab σ) (pod host : String) (port tries : Int) (sleep : Int)
    (w : World σ) : Option String × World σ :=
  let w1 := (runPostEnd c (Cmd.command ["code", "."] none [])
    (tryCall c (vscodeStatusUnit c) tries sleep) w).2
  let w2 := logf "info" "opening debug configuration" w1
  let la := toJson lib (newLaunchArgs pod host port)
  match la.2 with
  | some err => (some err, w2)
  | none =>
    let r := runOpen lib c ("vscode://fabiospampinato.vscode-debug-launcher/launch?args=" ++ la.1) w2
    match r.1.2 with
    | some err => (some err, r.2)
    | none => (none, r.2)

/-- Function `DelveCleanup` (dev.go 77-90). -/
def DelveCleanup (lib : Lib) (c : Collab σ) (deployment : Deployment) (pod container : String)
    (w : World σ) : (String × Option String) × World σ :=
  let isPatched := deploymentIsPatched lib deployment
  if !isPatched then
    (("", some "deployment not patched, stopping debug"), w)
  else
    let w1 := logf "info" "removing delve service" w
    let w2 := (run c (Cmd.deleteService deployment pod) w1).2
    let w3 := logf "info" "cleaning up debug processes" w2
    let w4 := (run c (Cmd.execPod pod container deployment.ObjectMeta.Namespace
      ["pkill", "-9", "dlv"]) w3).2
    let w5 := (run c (Cmd.execPod pod container deployment.ObjectMeta.Namespace
      ["pkill", "-9", deployment.ObjectMeta.Name]) w4).2
    (("", none), w5)

/-- The hook `Delve` hands to `postStart` (dev.go 142-152). -/
def delveHook (lib : Lib) (c : Collab σ) (pod host : String) (port : Int) (vscode : Bool)
    (w : World σ) : Option String × World σ :=
  let r := tryDelveServer c host port 5 (1 * timeSecond) w
  match r.1 with
  | some err => (some err, r.2)
  | none =>
    if vscode then
      let v := launchVscode lib c pod host port 5 (1 * timeSecond) r.2
      match v.1 with
      | some err => (some err, v.2)
      | none => (none, v.2)
    else (none, r.2)

/-- The command `Delve` runs in the pod (dev.go 122-130, 137-139). -/
def delveCommand (deployment : Deployment) (port : Int) (delveContinue : Bool)
    (args : List String) : List String :=
  let binDestination := "/" ++ deployment.ObjectMeta.Name
  let cmd := ["dlv", "exec", binDestination, "--api-version=2", "--headless",
    "--listen=:" ++ toString port, "--accept-multiclient"]
  let cmd := if delveContinue then cmd ++ ["--continue"] else cmd
  if args.length > 0 then (cmd ++ ["--"]) ++ args else cmd

/-- The last statements of `Delve` (dev.go 141-154): the remote exec with its
hook, whose result is dropped, and `return "", nil`. -/
def delveExec (lib : Lib) (c : Collab σ) (deployment : Deployment) (pod container : String)
    (args : List String) (delveContinue : Bool) (host : String) (port : Int) (vscode : Bool)
    (w : World σ) : (String × Option String) × World σ :=
  let r := runPostStart c (Cmd.execPod pod container deployment.ObjectMeta.Namespace
    (delveCommand deployment port delveContinue args)) (delveHook lib c pod host port vscode) w
  (("", none), r.2)

/-- Function `Delve` from the `signalCapture` call to its last line (dev.go
119-154): the part of the body that runs with the cleanup deferred. -/
def delveSession (lib : Lib) (c : Collab σ) (deployment : Deployment) (pod container : String)
    (args : List String) (delveContinue : Bool) (host : String) (port : Int) (vscode : Bool)
    (w : World σ) : (String × Option String) × World σ :=
  let w1 := signalCapture c w
  let w2 := logf "info" ("executing delve command on pod " ++ pod) w1
  if args.length = 0 then
    let r := getArgsFromPod lib c deployment.ObjectMeta.Namespace pod container w2
    match r.1.2 with
    | some err => (("", some err), r.2)
    | none => delveExec lib c deployment pod container r.1.1 delveContinue host port vscode r.2
  else delveExec lib c deployment pod container args delveContinue host port vscode w2

/-- Function `Delve` from the build of the binary to the exposure of the pod
(dev.go 98-117): the steps before the `defer` statement.  The result is the
`out, err` of the first step that fails, or `"", nil` when the pod is exposed. -/
def delveSetup (lib : Lib) (c : Collab σ) (deployment : Deployment) (pod container input : String)
    (host : String) (port : Int) (w : World σ) : (String × Option String) × World σ :=
  let binPath := lib.pathJoin [lib.tempDir, deployment.ObjectMeta.Name]
  let w1 := logf "info" ("building " ++ lib.quote input ++ " for debug") w
  let b := debugBuild c input binPath ["GOOS=linux"] w1
  match b.1.2 with
  | some err => (("", some err), b.2)
  | none =>
    let w2 := logf "info" ("copying binary to pod " ++ pod) b.2
    let binDestination := "/" ++ deployment.ObjectMeta.Name
    let cp := run c (Cmd.copyToPod pod container deployment.ObjectMeta.Namespace binPath
      binDestination) w2
    match cp.1.2 with
    | some err => (("", some err), cp.2)
    | none =>
      let w3 := logf "info" ("exposing deployment " ++ deployment.ObjectMeta.Name
        ++ " for delve") cp.2
      let ex := run c (Cmd.exposePod deployment.ObjectMeta.Namespace pod host port) w3
      match ex.1.2 with
      | some err => ((ex.1.1, some err), ex.2)
      | none => (("", none), ex.2)

/-- Function `Delve` (dev.go 92-155).  The deferred `DelveCleanup` runs when
the body after the `defer` statement returns; what it returns is dropped. -/
def Delve (lib : Lib) (c : Collab σ) (deployment : Deployment) (pod container input : String)
    (args : List String) (delveContinue : Bool) (host : String) (port : Int) (vscode : Bool)
    (w : World σ) : (String × Option String) × World σ :=
  let isPatched := deploymentIsPatched lib deployment
  if !isPatched then
    (("", some "deployment not patched, stopping debug"), w)
  else
    let s := delveSetup lib c deployment pod container input host port w
    match s.1.2 with
    | some err => ((s.1.1, some err), s.2)
    | none =>
      let r := delveSession lib c deployment pod container args delveContinue host port
        vscode s.2
      (r.1, (DelveCleanup lib c deployment pod container r.2).2)

/-- Function `Rollback` (dev.go 220-233). -/
def Rollback (lib : Lib) (c : Collab σ) (deployment : Deployment) (w : World σ) :
    (String × Option String) × World σ :=
  let isPatched := deploymentIsPatched lib deployment
  if !isPatched then
    (("", some "deployment not patched, stopping rollback"), w)
  else
    let w1 := logf "info" ("rolling back deployment " ++ deployment.ObjectMeta.Name) w
    let r := run c (Cmd.rollbackDeployment deployment.ObjectMeta.Name
      deployment.ObjectMeta.Namespace) w1
    match r.1.2 with
    | some err => ((r.1.1, some err), r.2)
    | none => (("", none), r.2)

/-- Function `Patch` from the extraction of the dummy files to its last line
(dev.go 167-217): the steps after the guard. -/
def patchSteps (lib : Lib) (c : Collab σ) (deployment : Deployment)
    (container image tag hostPath : String) (w : World σ) : (String × Option String) × World σ :=
  let w1 := logf "info" "extracting dummy files" w
  let ra := perform c (Action.restoreAssets lib.tempDir "dummy") w1
  match ra.1.2 with
  | some err => (("", some err), ra.2)
  | none =>
    let dummyPath := lib.pathJoin [lib.tempDir, "dummy"]
    let w2 := logf "info" ("building dummy image with " ++ image ++ ":" ++ tag) ra.2
    let bd := buildDummy c image tag dummyPath w2
    match bd.1.2 with
    | some err => (("", some err), bd.2)
    | none =>
      let w3 := logf "info" "rendering deployment patch template" bd.2
      let patch := renderTemplate c (lib.pathJoin [dummyPath, lib.devDeploymentPatchFile])
        (newPatchValues lib deployment.ObjectMeta.Name container hostPath) w3
      match patch.1.2 with
      | some err => (("", some err), patch.2)
      | none =>
        let w4 := logf "info" "waiting for deployment to get ready" patch.2
        let wr := run c (Cmd.waitForRollout deployment.ObjectMeta.Name
          deployment.ObjectMeta.Namespace lib.defaultWaitTimeout) w4
        match wr.1.2 with
        | some err => ((wr.1.1, some err), wr.2)
        | none =>
          let w5 := logf "info" "patching deployment for development" wr.2
          let pd := run c (Cmd.patchDeployment patch.1.1 deployment.ObjectMeta.Name
            deployment.ObjectMeta.Namespace) w5
          match pd.1.2 with
          | some err => ((pd.1.1, some err), pd.2)
          | none =>
            let w6 := logf "info" ("getting most recent pod with selector from deployment "
              ++ deployment.ObjectMeta.Name) pd.2
            let pod := perform c (Action.getMostRecentPodBySelectors
              deployment.Spec.Selector.MatchLabels deployment.ObjectMeta.Namespace) w6
            match pod.1.2 with
            | some err => (("", some err), pod.2)
            | none =>
              let w7 := logf "info" ("waiting for pod " ++ pod.1.1 ++ " with "
                ++ lib.quote lib.conditionContainersReady) pod.2
              let wp := run c (Cmd.waitForPodState deployment.ObjectMeta.Namespace pod.1.1
                lib.conditionContainersReady lib.defaultWaitTimeout) w7
              match wp.1.2 with
              | some err => ((wp.1.1, some err), wp.2)
              | none =>
                let w8 := logf "info" ("copying deployment " ++ deployment.ObjectMeta.Name
                  ++ " args into pod " ++ pod.1.1) wp.2
                let ca := copyArgsToPod lib c deployment pod.1.1 container w8
                match ca.1 with
                | some err => (("", some err), ca.2)
                | none => (("", none), ca.2)

/-- Function `Patch` (dev.go 157-218). -/
def Patch (lib : Lib) (c : Collab σ) (deployment : Deployment)
    (container image tag hostPath : String) (w : World σ) : (String × Option String) × World σ :=
  let isPatched := deploymentIsPatched lib deployment
  if isPatched then
    let w1 := logf "warning" "deployment already patched, running rollback first" w
    let rb := Rollback lib c deployment w1
    match rb.1.2 with
    | some err => ((rb.1.1, some err), rb.2)
    | none => patchSteps lib c deployment container image tag hostPath rb.2
  else
    patchSteps lib c deployment container image tag hostPath w

/-- Function `Shell` (dev.go 235-249). -/
def Shell (lib : Lib) (c : Collab σ) (deployment : Deployment) (pod : String) (w : World σ) :
    (String × Option String) × World σ :=
  let isPatched := deploymentIsPatched lib deployment
  if !isPatched then
    (("", some "deployment not patched, stopping shell exec"), w)
  else
    let w1 := logf "info" ("waiting for pod " ++ pod ++ " with "
      ++ lib.quote lib.conditionContainersReady) w
    let wp := run c (Cmd.waitForPodState deployment.ObjectMeta.Namespace pod
      lib.conditionContainersReady lib.defaultWaitTimeout) w1
    match wp.1.2 with
    | some err => ((wp.1.1, some err), wp.2)
    | none =>
      let w2 := logf "info" ("running interactive shell for patched deployment "
        ++ deployment.ObjectMeta.Name) wp.2
      run c (Cmd.execShell ("pod/" ++ pod) (getMountPath deployment.ObjectMeta.Name)
        deployment.ObjectMeta.Namespace) w2

/-! ## Sample inputs -/

/-- A collaborator without state whose unit of work fails on the attempts
before `k` and succeeds from attempt `k` on; every other call succeeds. -/
def succeedsAt (k : Int) : Collab Unit where
  respond a s :=
    match a with
    | Action.call i _ => if i < k then (("", some "not ready"), s) else (("", none), s)
    | _ => (("", none), s)

/-- A collaborator without state whose unit of work fails on every attempt. -/
def alwaysFails : Collab Unit where
  respond a s :=
    match a with
    | Action.call i _ => (("", some ("attempt " ++ toString i ++ " failed")), s)
    | _ => (("", none), s)

/-- The world before anything was done. -/
def World.init : World Unit := { state := (), trace := [] }


/-- A string contains another one: as a run of consecutive characters. -/
def containsStr (s sub : String) : Prop :=
  sub.data <:+: s.data

/-- The keys of a Go map. -/
def keysOf (m : List (String × String)) : List String :=
  m.map Prod.fst

/-- The label map of the pod template of a deployment. -/
def podTemplateLabels (deployment : Deployment) : List (String × String) :=
  deployment.Spec.Template.ObjectMeta.Labels

/-- The actions of a cleanup on a patched deployment, in order. -/
def cleanupActions (deployment : Deployment) (pod container : String) : List Action :=
  [Action.log "info" "removing delve service",
   Action.run (Cmd.deleteService deployment pod),
   Action.log "info" "cleaning up debug processes",
   Action.run (Cmd.execPod pod container deployment.ObjectMeta.Namespace ["pkill", "-9", "dlv"]),
   Action.run (Cmd.execPod pod container deployment.ObjectMeta.Namespace
     ["pkill", "-9", deployment.ObjectMeta.Name])]

/-- The actions only a cleanup issues: the removal of the service exposure and
the `pkill` commands run in the pod. -/
def isCleanupAction : Action → Bool
  | Action.run (Cmd.deleteService _ _) => true
  | Action.run (Cmd.execPod _ _ _ ("pkill" :: _)) => true
  | _ => false

/-- A library for the sample runs. -/
def sampleLib : Lib where
  defaultPatchedLabel := "dev-mode-patched"
  devDeploymentPatchFile := "deployment-patch.yaml"
  conditionContainersReady := "condition=ContainersReady"
  defaultWaitTimeout := "30s"
  tempDir := "/tmp"
  goos := "linux"
  pathJoin := fun elems => stringsJoin elems "/"
  quote := fun s => "\"" ++ s ++ "\""
  jsonMarshal := fun la => Except.ok la.Name
  yamlUnmarshal := fun _ => Except.ok []

/-- A deployment `api` whose pod template carries labels `labels`. -/
def apiDeployment (labels : List (String × String)) : Deployment where
  ObjectMeta := { Name := "api", Namespace := "default", Labels := [] }
  Spec :=
    { Selector := { MatchLabels := [("app", "api")] }
      Template :=
        { ObjectMeta := { Name := "", Namespace := "", Labels := labels }
          Spec := { Containers := [{ Name := "app", Args := ["--port=80"] }] } } }

/-- A deployment without the patch marker. -/
def unpatchedDeployment : Deployment :=
  apiDeployment [("app", "api")]

/-- A deployment with the patch marker. -/
def patchedDeployment : Deployment :=
  apiDeployment [("app", "api"), ("dev-mode-patched", "true")]

/-- Collaborators that always succeed, with no output. -/
def allSucceed : Collab Unit where
  respond _ s := (("", none), s)

/-- Collaborators that always fail. -/
def allFail : Collab Unit where
  respond _ s := (("out", some "failed"), s)

/-- Collaborators whose revision rollback fails; every other call succeeds. -/
def rollbackFails : Collab Unit where
  respond a s :=
    match a with
    | Action.run (Cmd.rollbackDeployment _ _) => (("no revision", some "rollback failed"), s)
    | _ => (("", none), s)

/-- Collaborators with a debugger that never answers: every connection attempt
fails; every other call succeeds. -/
def pollFails : Collab Unit where
  respond a s :=
    match a with
    | Action.dialTimeout _ _ => (("", some "connection refused"), s)
    | _ => (("", none), s)

/-- The trace `t2` is the trace `t` followed by actions that all satisfy `Q`. -/
def Ext (Q : Action → Prop) (t t2 : List Action) : Prop :=
  ∃ ext, t2 = t ++ ext ∧ ∀ a ∈ ext, Q a

/-- What `Patch` may issue as a local command and as values of the patch
template: the build of the dummy image, tagged `dummy:latest`, with
`image:tag` as the build argument `IMAGE`, and the values of `newPatchValues`. -/
def isPatchAction (lib : Lib) (deployment : Deployment) (container image tag hostPath : String) :
    Action → Prop
  | Action.run (Cmd.command args cwd env) =>
    args = ["docker", "build", ".", "--build-arg", "IMAGE=" ++ image ++ ":" ++ tag,
      "-t", "dummy:latest"]
    ∧ cwd = some (lib.pathJoin [lib.tempDir, "dummy"]) ∧ env = []
  | Action.executeTemplate _ values =>
    values = newPatchValues lib deployment.ObjectMeta.Name container hostPath
  | _ => True

/-- The actions issued between the world `w` and the later world `w2`. -/
def issued (w w2 : World σ) : List Action :=
  w2.trace.drop w.trace.length

/-- The local build command of `Patch` for `image` and `tag`. -/
def dummyBuild (lib : Lib) (image tag : String) : Action :=
  Action.run (Cmd.command ["docker", "build", ".", "--build-arg", "IMAGE=" ++ image ++ ":" ++ tag,
    "-t", "dummy:latest"] (some (lib.pathJoin [lib.tempDir, "dummy"])) [])

/-- The three actions `Patch` starts with on a patched deployment: the
warning, the log line of `Rollback` and the revision rollback. -/
def rollbackActions (deployment : Deployment) : List Action :=
  [Action.log "warning" "deployment already patched, running rollback first",
   Action.log "info" ("rolling back deployment " ++ deployment.ObjectMeta.Name),
   Action.run (Cmd.rollbackDeployment deployment.ObjectMeta.Name deployment.ObjectMeta.Namespace)]

/-- An action that a cleanup does not issue. -/
def notCleanup (a : Action) : Prop :=
  isCleanupAction a = false

/-- The remote command of a debug session, in the words of the spec: the
headless debugger on the copied binary, listening on the port and accepting
several clients, followed by `--continue` when the continue flag is set, and
by `--` and the effective arguments when there are any. -/
def remoteCommandSpec (name : String) (port : Int) (continueFlag : Bool)
    (effective : List String) : List String :=
  ["dlv", "exec", "/" ++ name, "--api-version=2", "--headless", "--listen=:" ++ toString port,
    "--accept-multiclient"]
    ++ (if continueFlag then ["--continue"] else [])
    ++ (if effective = [] then [] else "--" :: effective)

/-- The world in which `Delve`, the pod exposed and the watcher registered,
either reads the injected arguments back or starts the remote exec. -/
def sessionStart (lib : Lib) (c : Collab σ) (deployment : Deployment)
    (pod container input host : String) (port : Int) (w : World σ) : World σ :=
  logf "info" ("executing delve command on pod " ++ pod)
    (signalCapture c (delveSetup lib c deployment pod container input host port w).2)

/-- The query that reads the injected-arguments file of the pod. -/
def argsQuery (deployment : Deployment) (pod container : String) : Action :=
  Action.run (Cmd.execPod pod container deployment.ObjectMeta.Namespace ["cat", "/args.yaml"])

/-- The list read back from the injected-arguments file of the pod in the
outside state `s`: the answer to the query, decoded as a list of strings. -/
def injectedArguments (lib : Lib) (c : Collab σ) (deployment : Deployment)
    (pod container : String) (s : σ) : Except String (List String) :=
  match (c.respond (argsQuery deployment pod container) s).1.2 with
  | some err => Except.error err
  | none => lib.yamlUnmarshal (c.respond (argsQuery deployment pod container) s).1.1

/-- The commands started with a post-start hook in a trace, in order. -/
def startsOf : List Action → List Cmd
  | [] => []
  | Action.start cmd :: t => cmd :: startsOf t
  | _ :: t => startsOf t

/-- A read of an injected-arguments file. -/
def isArgsQuery : Action → Bool
  | Action.run (Cmd.execPod _ _ _ ["cat", "/args.yaml"]) => true
  | _ => false

/-- The reads of an injected-arguments file in a trace, in order. -/
def argsQueriesOf (t : List Action) : List Action :=
  t.filter isArgsQuery

/-- An action that is neither the start of a remote command nor a read of an
injected-arguments file. -/
def notExec : Action → Prop
  | Action.start _ => False
  | a => isArgsQuery a = false

/-- The sample library, with a decoder that reads a file of one line as a
list of one string. -/
def oneLineLib : Lib :=
  { sampleLib with yamlUnmarshal := fun out => Except.ok [out] }

/-- Collaborators whose pod holds the injected arguments `--port=80`; every
call succeeds. -/
def argsInPod : Collab Unit where
  respond a s :=
    match a with
    | Action.run (Cmd.execPod _ _ _ ["cat", "/args.yaml"]) => (("--port=80", none), s)
    | _ => (("", none), s)

/-- The eight steps of `Patch` after its guard. -/
inductive PatchStep where
  | extract
  | build
  | render
  | waitRollout
  | apply
  | resolvePod
  | waitPod
  | copyArgs
  deriving DecidableEq, Repr

/-- The step of `Patch` an action belongs to; a log line belongs to none.  The
step `render` has two actions, the parsing of the template and its execution,
and so has `copyArgs`, the writing of the arguments file and its copy. -/
def stepOf : Action → Option PatchStep
  | Action.restoreAssets _ _ => some PatchStep.extract
  | Action.run (Cmd.command _ _ _) => some PatchStep.build
  | Action.parseFiles _ => some PatchStep.render
  | Action.executeTemplate _ _ => some PatchStep.render
  | Action.run (Cmd.waitForRollout _ _ _) => some PatchStep.waitRollout
  | Action.run (Cmd.patchDeployment _ _ _) => some PatchStep.apply
  | Action.getMostRecentPodBySelectors _ _ => some PatchStep.resolvePod
  | Action.run (Cmd.waitForPodState _ _ _ _) => some PatchStep.waitPod
  | Action.generateYaml _ _ => some PatchStep.copyArgs
  | Action.run (Cmd.copyToPod _ _ _ _ _) => some PatchStep.copyArgs
  | _ => none

/-- The steps of the actions of a trace, in order. -/
def stepsOf (t : List Action) : List PatchStep :=
  t.filterMap stepOf

/-- The fixed order of the steps of `Patch`, action by action. -/
def patchOrder : List PatchStep :=
  [PatchStep.extract, PatchStep.build, PatchStep.render, PatchStep.render,
   PatchStep.waitRollout, PatchStep.apply, PatchStep.resolvePod, PatchStep.waitPod,
   PatchStep.copyArgs, PatchStep.copyArgs]

/-- An action written to the logger. -/
def isLog : Action → Bool
  | Action.log _ _ => true
  | _ => false

/-- The errors the collaborators answer to the actions `l`, issued in order
from the outside state `s`; a log line is not answered and counts as `nil`. -/
def answers (c : Collab σ) : σ → List Action → List (Action × Option String)
  | _, [] => []
  | s, a :: t =>
    if isLog a then (a, none) :: answers c s t
    else (a, (c.respond a s).1.2) :: answers c (c.respond a s).2 t

/-- The outside state after the actions `l`, issued in order from the state `s`. -/
def stateAfter (c : Collab σ) : σ → List Action → σ
  | s, [] => s
  | s, a :: t => if isLog a then stateAfter c s t else stateAfter c (c.respond a s).2 t

/-- The world `w` is reached from `w0` by actions that make up the first `k`
entries of the fixed order and were all answered without error. -/
def Progress (c : Collab σ) (k : Nat) (w0 w : World σ) : Prop :=
  ∃ acts, w.trace = w0.trace ++ acts ∧ w.state = stateAfter c w0.state acts ∧
    (∀ p ∈ answers c w0.state acts, p.2 = none) ∧ stepsOf acts = patchOrder.take k

/-- A run from `w0` to `final` with result `err` that went through the steps
in the fixed order and stopped at the first failure: the outside state is the
one the actions issued lead to, their steps are a beginning of the fixed order, every action but the last was
answered without error, the result is the answer to the last action, a success
comes with all the steps, and a patch is applied only when the wait for the
rollout was answered without error. -/
def FailFast (c : Collab σ) (w0 final : World σ) (err : Option String) : Prop :=
  ∃ acts, final.trace = w0.trace ++ acts ∧
    final.state = stateAfter c w0.state acts ∧
    stepsOf acts <+: patchOrder ∧
    answers c w0.state acts ≠ [] ∧
    (∀ p ∈ (answers c w0.state acts).dropLast, p.2 = none) ∧
    (∀ p, (answers c w0.state acts).getLast? = some p → err = p.2) ∧
    (err = none → stepsOf acts = patchOrder) ∧
    (∀ a ∈ acts, stepOf a = some PatchStep.apply →
      ∃ b, stepOf b = some PatchStep.waitRollout ∧ (b, none) ∈ answers c w0.state acts)

/-- The invocations of the unit of work among the actions `acts`, issued in
order from the outside state `s`: attempt index, maximum, and what the
invocation returned. -/
def callAnswers (c : Collab σ) (s : σ) (acts : List Action) : List (Int × Int × Option String) :=
  (answers c s acts).filterMap fun p =>
    match p.1 with
    | Action.call i tries => some (i, tries, p.2)
    | _ => none

/-- Invocations with the attempt indices `lo, lo+1, ...` and the maximum
`tries` that failed with the errors `errs`, in order. -/
def failedAttempts (tries : Int) : Int → List String → List (Int × Int × Option String)
  | _, [] => []
  | lo, e :: errs => (lo, tries, some e) :: failedAttempts tries (lo + 1) errs

/-- The last of the errors `errs`, or `err0` when there is none. -/
def lastError (err0 : Option String) : List String → Option String
  | [] => err0
  | e :: errs => lastError (some e) errs

/-- A unit of work with a state of its own, the number of invocations so far:
it fails on its first two invocations and succeeds from the third on, whatever
the attempt index it is given; every other call succeeds. -/
def failsTwice : Collab Nat where
  respond a s :=
    match a with
    | Action.call _ _ => if s < 2 then (("", some "not ready"), s + 1) else (("", none), s + 1)
    | _ => (("", none), s)

/-! ## Traces -/

theorem callsOf_append (a b : List Action) : callsOf (a ++ b) = callsOf a ++ callsOf b := by
  induction a with
  | nil => rfl
  | cons x t ih => cases x <;> simp [callsOf, ih]

theorem forRange_tries (n : Int) (h0 : -9223372036854775808 ≤ n) (h1 : n < 9223372036854775807) :
    forRange 1 (wrapInt (n + 1)) = countUp 1 n.toNat := by
  have hw : wrapInt (n + 1) = n + 1 := by
    unfold wrapInt
    omega
  rw [hw, forRange]
  congr 1
  omega

/-! ## The retry primitive: attempts -/

/-- The loop of `tryCall` for a unit of work answered by the collaborators,
whatever they answer: the attempts left are made in order until one succeeds
or none is left. -/
theorem tryCallLoop_run (c : Collab σ) (n : Int) :
    ∀ (m : Nat) (lo : Int) (err0 : Option String) (w : World σ),
      ∃ acts errs,
        (tryCallLoop c (unitOfWork c) n (countUp lo m) err0 w).2.trace = w.trace ++ acts ∧
        (tryCallLoop c (unitOfWork c) n (countUp lo m) err0 w).2.state
          = stateAfter c w.state acts ∧
        ((callAnswers c w.state acts
              = failedAttempts n lo errs ++ [(lo + (errs.length : Int), n, none)] ∧
            errs.length < m ∧
            (tryCallLoop c (unitOfWork c) n (countUp lo m) err0 w).1 = none) ∨
          (callAnswers c w.state acts = failedAttempts n lo errs ∧
            errs.length = m ∧
            (tryCallLoop c (unitOfWork c) n (countUp lo m) err0 w).1 = lastError err0 errs)) := by
  intro m
  induction m with
  | zero =>
    intro lo err0 w
    refine ⟨[], [], by simp [countUp, tryCallLoop], by simp [countUp, tryCallLoop, stateAfter],
      Or.inr ?_⟩
    simp [countUp, tryCallLoop, callAnswers, answers, failedAttempts, lastError]
  | succ m ih =>
    intro lo err0 w
    cases hr : (c.respond (Action.call lo n) w.state).1.2 with
    | none =>
      have h1 : (unitOfWork c lo n w).1 = none := by simp [unitOfWork, perform, hr]
      refine ⟨[Action.call lo n], [], ?_, ?_, Or.inl ?_⟩
      · simp only [countUp, tryCallLoop, h1]
        simp [unitOfWork, perform]
      · simp only [countUp, tryCallLoop, h1]
        simp [unitOfWork, perform, stateAfter, isLog]
      · simp only [countUp, tryCallLoop, h1]
        simp [callAnswers, answers, isLog, failedAttempts, hr]
    | some e =>
      have h1 : (unitOfWork c lo n w).1 = some e := by simp [unitOfWork, perform, hr]
      obtain ⟨acts, errs, ht, hs, hcase⟩ :=
        ih (lo + 1) (some e) (timeSleep c timeSecond (unitOfWork c lo n w).2)
      have hloop : tryCallLoop c (unitOfWork c) n (countUp lo (m + 1)) err0 w
          = tryCallLoop c (unitOfWork c) n (countUp (lo + 1) m) (some e)
              (timeSleep c timeSecond (unitOfWork c lo n w).2) := by
        simp only [countUp, tryCallLoop, h1]
      have hstate : (timeSleep c timeSecond (unitOfWork c lo n w).2).state
          = (c.respond (Action.sleep timeSecond) (c.respond (Action.call lo n) w.state).2).2 := by
        simp [timeSleep, unitOfWork, perform]
      have hcalls : callAnswers c w.state (Action.call lo n :: Action.sleep timeSecond :: acts)
          = (lo, n, some e) :: callAnswers c
              (timeSleep c timeSecond (unitOfWork c lo n w).2).state acts := by
        simp [callAnswers, answers, isLog, hr, hstate]
      refine ⟨Action.call lo n :: Action.sleep timeSecond :: acts, e :: errs, ?_, ?_, ?_⟩
      · rw [hloop, ht]
        simp [timeSleep, unitOfWork, perform]
      · rw [hloop, hs]
        simp [stateAfter, isLog, hstate]
      · rw [hloop, hcalls]
        rcases hcase with ⟨hc, hlen, hres⟩ | ⟨hc, hlen, hres⟩
        · refine Or.inl ⟨?_, by simp [hlen], hres⟩
          have hidx : lo + 1 + (errs.length : Int) = lo + ((e :: errs).length : Int) := by
            simp only [List.length_cons]
            push_cast
            omega
          rw [hc, hidx]
          rfl
        · refine Or.inr ⟨?_, by simp [hlen], ?_⟩
          · rw [hc]
            rfl
          · rw [hres]
            rfl

theorem lastError_eq_getLast? (errs : List String) : lastError none errs = errs.getLast? := by
  have key : ∀ (l : List String) (e : String), lastError (some e) l = (e :: l).getLast? := by
    intro l
    induction l with
    | nil => intro e; rfl
    | cons x t ih =>
      intro e
      rw [List.getLast?_cons_cons]
      exact ih x
  cases errs with
  | nil => rfl
  | cons e t => exact key t e

/-- C1, as stated, fails at the maximum attempt count 0: the unit of work of
`alwaysFails` fails on every attempt, and `tryCall` with `tries = 0` returns
`nil`, a success, instead of a failure. -/
theorem tryCall_zero_tries_counterexample :
    (∀ i tries s, (alwaysFails.respond (Action.call i tries) s).1.2 ≠ none) ∧
    (tryCall alwaysFails (unitOfWork alwaysFails) 0 timeSecond World.init).1 = none ∧
    callsOf (tryCall alwaysFails (unitOfWork alwaysFails) 0 timeSecond World.init).2.trace = [] := by
  refine ⟨?_, by decide, by decide⟩
  intro i tries s
  simp [alwaysFails]

/-- C1 (amended): let `n` be a maximum attempt count with `n + 1` a 64-bit
`int`, and take any unit of work, whatever it returns and does to the outside
state on each invocation.  `tryCall` invokes the unit with the attempt
indices `1, 2, ...` in order and the maximum `n`, what each invocation returned
being read off the run itself, and one of two things happens.  Either the invocations `1, ..., k-1` failed and the invocation `k`
succeeded, with `k ≤ n`: then these `k` invocations are all there are and
`tryCall` returns success.  Or every invocation failed: then there are exactly
`n` of them (none when `n ≤ 0`) and `tryCall` returns the error of the last
one (`nil` when there is none). -/
theorem tryCall_attempts (c : Collab σ) (n d : Int) (w : World σ)
    (hmin : -9223372036854775808 ≤ n) (hmax : n < 9223372036854775807) :
    (tryCall c (unitOfWork c) n d w).2.trace
      = w.trace ++ issued w (tryCall c (unitOfWork c) n d w).2 ∧
    (tryCall c (unitOfWork c) n d w).2.state
      = stateAfter c w.state (issued w (tryCall c (unitOfWork c) n d w).2) ∧
    ∃ errs : List String,
      (callAnswers c w.state (issued w (tryCall c (unitOfWork c) n d w).2)
            = failedAttempts n 1 errs ++ [(1 + (errs.length : Int), n, none)] ∧
          (1 + errs.length : Int) ≤ n ∧
          (tryCall c (unitOfWork c) n d w).1 = none) ∨
        (callAnswers c w.state (issued w (tryCall c (unitOfWork c) n d w).2)
            = failedAttempts n 1 errs ∧
          (errs.length : Int) = max n 0 ∧
          (tryCall c (unitOfWork c) n d w).1 = errs.getLast?) := by
  have hrange := forRange_tries n hmin hmax
  obtain ⟨acts, errs, ht, hs, hcase⟩ := tryCallLoop_run c n n.toNat 1 none w
  have hT : tryCall c (unitOfWork c) n d w
      = tryCallLoop c (unitOfWork c) n (countUp 1 n.toNat) none w := by
    simp only [tryCall, hrange]
  have hi : issued w (tryCallLoop c (unitOfWork c) n (countUp 1 n.toNat) none w).2 = acts := by
    simp [issued, ht]
  rw [hT, hi]
  refine ⟨ht, hs, errs, ?_⟩
  rcases hcase with ⟨hc, hlen, hres⟩ | ⟨hc, hlen, hres⟩
  · exact Or.inl ⟨hc, by omega, hres⟩
  · refine Or.inr ⟨hc, by omega, ?_⟩
    rw [hres, lastError_eq_getLast?]

/-- C1, witness: a unit of work with a state of its own, which fails on its
first two invocations and then succeeds, retried up to 5 times from a fresh
state: `tryCall` makes the attempts 1, 2 and 3 and returns success. -/
theorem tryCall_attempts_witness :
    ((tryCall failsTwice (unitOfWork failsTwice) 5 timeSecond { state := 0, trace := [] }).1 = none ∧
      callAnswers failsTwice 0 (issued { state := 0, trace := [] }
          (tryCall failsTwice (unitOfWork failsTwice) 5 timeSecond { state := 0, trace := [] }).2)
        = [(1, 5, some "not ready"), (2, 5, some "not ready"), (3, 5, none)]) ∧
    ∃ errs : List String,
      (callAnswers failsTwice 0 (issued { state := 0, trace := [] }
          (tryCall failsTwice (unitOfWork failsTwice) 5 timeSecond { state := 0, trace := [] }).2)
            = failedAttempts 5 1 errs ++ [(1 + (errs.length : Int), 5, none)] ∧
          (1 + errs.length : Int) ≤ 5 ∧
          (tryCall failsTwice (unitOfWork failsTwice) 5 timeSecond
            { state := 0, trace := [] }).1 = none) ∨
        (callAnswers failsTwice 0 (issued { state := 0, trace := [] }
          (tryCall failsTwice (unitOfWork failsTwice) 5 timeSecond { state := 0, trace := [] }).2)
            = failedAttempts 5 1 errs ∧
          (errs.length : Int) = max 5 0 ∧
          (tryCall failsTwice (unitOfWork failsTwice) 5 timeSecond
            { state := 0, trace := [] }).1 = errs.getLast?) :=
  ⟨⟨by decide, by decide⟩,
   (tryCall_attempts failsTwice 5 timeSecond { state := 0, trace := [] } (by decide)
      (by decide)).2.2⟩

/-! ## The retry primitive: pauses -/

/-- C2, at the failing input: with the delay `2 * time.Second`, a maximum of 3
attempts and a unit that fails once and then succeeds, the one pause
`tryCall` makes lasts `time.Second`, not the delay it was given; and with a
unit that fails on both of 2 attempts, `tryCall` pauses twice, the second
time after the last attempt. -/
theorem tryCall_pause_ignores_delay :
    (tryCall (succeedsAt 2) (unitOfWork (succeedsAt 2)) 3 (2 * timeSecond) World.init).2.trace
      = [Action.call 1 3, Action.sleep timeSecond, Action.call 2 3] ∧
    (tryCall alwaysFails (unitOfWork alwaysFails) 2 (2 * timeSecond) World.init).2.trace
      = [Action.call 1 2, Action.sleep timeSecond, Action.call 2 2, Action.sleep timeSecond] := by
  constructor <;> decide

/-! ## The patch marker -/

theorem lookup_isSome_iff_key (k : String) (m : List (String × String)) :
    (m.lookup k).isSome = true ↔ k ∈ keysOf m := by
  induction m with
  | nil => simp [keysOf]
  | cons kv t ih =>
    obtain ⟨k2, v⟩ := kv
    by_cases h : k = k2
    · subst h
      simp [List.lookup, keysOf]
    · have hb : (k == k2) = false := by simpa using h
      simp only [List.lookup, hb, ih]
      simp [keysOf, h]

theorem deploymentIsPatched_eq_true (lib : Lib) (d : Deployment) :
    deploymentIsPatched lib d = true ↔ lib.defaultPatchedLabel ∈ keysOf (podTemplateLabels d) := by
  rw [← lookup_isSome_iff_key]
  unfold deploymentIsPatched podTemplateLabels
  cases d.Spec.Template.ObjectMeta.Labels.lookup lib.defaultPatchedLabel <;> simp

theorem deploymentIsPatched_eq_false (lib : Lib) (d : Deployment)
    (h : lib.defaultPatchedLabel ∉ keysOf (podTemplateLabels d)) :
    deploymentIsPatched lib d = false := by
  cases hp : deploymentIsPatched lib d
  · rfl
  · exact absurd ((deploymentIsPatched_eq_true lib d).1 hp) h

/-- C3: `deploymentIsPatched` returns true if and only if the patch-marker key
is among the keys of the label map of the pod template; two deployments whose
pod-template label maps agree on the presence of the marker key give the same
result, whatever the values under the key and whatever their other fields. -/
theorem deploymentIsPatched_iff_marker (lib : Lib) (d : Deployment) :
    (deploymentIsPatched lib d = true ↔ lib.defaultPatchedLabel ∈ keysOf (podTemplateLabels d)) ∧
    ∀ d2 : Deployment,
      (lib.defaultPatchedLabel ∈ keysOf (podTemplateLabels d)
        ↔ lib.defaultPatchedLabel ∈ keysOf (podTemplateLabels d2)) →
      deploymentIsPatched lib d = deploymentIsPatched lib d2 := by
  refine ⟨deploymentIsPatched_eq_true lib d, ?_⟩
  intro d2 h
  have h1 := deploymentIsPatched_eq_true lib d
  have h2 := deploymentIsPatched_eq_true lib d2
  cases hd : deploymentIsPatched lib d <;> cases hd2 : deploymentIsPatched lib d2 <;> simp_all

/-- C3, witness: two deployments that carry the marker with different values,
and differ in name and containers, are both patched. -/
theorem deploymentIsPatched_iff_marker_witness :
    deploymentIsPatched sampleLib patchedDeployment
      = deploymentIsPatched sampleLib
          { ObjectMeta := { Name := "web", Namespace := "prod", Labels := [] }
            Spec :=
              { Selector := { MatchLabels := [] }
                Template :=
                  { ObjectMeta := { Name := "", Namespace := "",
                                    Labels := [("dev-mode-patched", "no")] }
                    Spec := { Containers := [] } } } } :=
  (deploymentIsPatched_iff_marker sampleLib patchedDeployment).2 _ (by decide)

/-! ## The guard of the operations that need a patched deployment -/

/-- C4: on a deployment whose pod template lacks the patch marker, `Rollback`,
`Shell`, `Delve` and `DelveCleanup` each return an error whose text contains
"not patched" ("not patched, stopping rollback" for `Rollback`, "not patched,
stopping debug" for `Delve` and `DelveCleanup`), and leave the world as it was:
no action of any kind is issued. -/
theorem unpatched_operations_fail (lib : Lib) (c : Collab σ) (d : Deployment)
    (pod container input host : String) (args : List String) (delveContinue vscode : Bool)
    (port : Int) (w : World σ)
    (h : lib.defaultPatchedLabel ∉ keysOf (podTemplateLabels d)) :
    (Rollback lib c d w = (("", some "deployment not patched, stopping rollback"), w) ∧
      containsStr "deployment not patched, stopping rollback" "not patched, stopping rollback") ∧
    (Shell lib c d pod w = (("", some "deployment not patched, stopping shell exec"), w) ∧
      containsStr "deployment not patched, stopping shell exec" "not patched") ∧
    (Delve lib c d pod container input args delveContinue host port vscode w
        = (("", some "deployment not patched, stopping debug"), w) ∧
      DelveCleanup lib c d pod container w
        = (("", some "deployment not patched, stopping debug"), w) ∧
      containsStr "deployment not patched, stopping debug" "not patched, stopping debug") ∧
    containsStr "not patched, stopping rollback" "not patched" ∧
    containsStr "not patched, stopping debug" "not patched" := by
  have hp := deploymentIsPatched_eq_false lib d h
  refine ⟨⟨?_, by unfold containsStr; decide⟩, ⟨?_, by unfold containsStr; decide⟩,
    ⟨?_, ?_, by unfold containsStr; decide⟩, by unfold containsStr; decide,
    by unfold containsStr; decide⟩
  · simp [Rollback, hp]
  · simp [Shell, hp]
  · simp [Delve, hp]
  · simp [DelveCleanup, hp]

/-- C4, witness: the four operations on the sample deployment without the
marker, with collaborators that would all succeed. -/
theorem unpatched_operations_fail_witness :
    Rollback sampleLib allSucceed unpatchedDeployment World.init
      = (("", some "deployment not patched, stopping rollback"), World.init) :=
  (unpatched_operations_fail sampleLib allSucceed unpatchedDeployment "api-1" "app" "./cmd/api"
    "127.0.0.1" [] false false 2345 World.init (by decide)).1.1

/-! ## The resource validator -/

theorem stringInSlice_eq_true (a : String) (list : List String) :
    stringInSlice a list = true ↔ a ∈ list := by
  induction list with
  | nil => simp [stringInSlice]
  | cons b t ih =>
    by_cases h : b = a
    · simp [stringInSlice, h]
    · have h2 : ¬ a = b := fun e => h e.symm
      simp [stringInSlice, h, h2, ih]

theorem containsStr_refl (s : String) : containsStr s s :=
  List.infix_refl _

theorem containsStr_append_left (s t sub : String) (h : containsStr s sub) :
    containsStr (s ++ t) sub := by
  unfold containsStr at *
  rw [String.data_append]
  exact h.trans (List.infix_append' [] s.data t.data)

theorem containsStr_append_right (s t sub : String) (h : containsStr t sub) :
    containsStr (s ++ t) sub := by
  unfold containsStr at *
  rw [String.data_append]
  exact h.trans (List.suffix_append s.data t.data).isInfix

theorem stringsJoin_contains (sep : String) :
    ∀ (elems : List String) (a : String), a ∈ elems → containsStr (stringsJoin elems sep) a
  | [], a, h => by simp at h
  | [b], a, h => by
    have : a = b := by simpa using h
    subst this
    exact containsStr_refl _
  | b :: b2 :: rest, a, h => by
    simp only [stringsJoin]
    rcases List.mem_cons.1 h with h1 | h1
    · subst h1
      exact containsStr_append_left _ _ _ (containsStr_append_left _ _ _ (containsStr_refl _))
    · exact containsStr_append_right _ _ _ (stringsJoin_contains sep (b2 :: rest) a h1)

/-- C5: `validateResource` returns an error if and only if the requested name
is not an element of the candidate list; the text of that error is the
resource kind, the requested name, and the candidates joined by ", " in list
order, so it contains the kind, the name and every candidate. -/
theorem validateResource_error_iff (resourceType resource : String) (available : List String) :
    (validateResource resourceType resource available ≠ none ↔ resource ∉ available) ∧
    ∀ msg, validateResource resourceType resource available = some msg →
      msg = resourceType ++ " " ++ resource ++ " not found, available: "
        ++ stringsJoin available ", " ∧
      containsStr msg resourceType ∧ containsStr msg resource ∧
      containsStr msg (stringsJoin available ", ") ∧
      ∀ a ∈ available, containsStr msg a := by
  have hin := stringInSlice_eq_true resource available
  constructor
  · unfold validateResource
    by_cases h : resource ∈ available
    · simp [hin.2 h, h]
    · have : stringInSlice resource available = false := by
        cases hs : stringInSlice resource available
        · rfl
        · exact absurd (hin.1 hs) h
      simp [this, h]
  · intro msg hmsg
    unfold validateResource at hmsg
    split at hmsg
    · have hm : msg = resourceType ++ " " ++ resource ++ " not found, available: "
          ++ stringsJoin available ", " := by
        simpa using hmsg.symm
      subst hm
      refine ⟨rfl, ?_, ?_, ?_, ?_⟩
      · exact containsStr_append_left _ _ _ (containsStr_append_left _ _ _
          (containsStr_append_left _ _ _ (containsStr_append_left _ _ _ (containsStr_refl _))))
      · exact containsStr_append_left _ _ _ (containsStr_append_left _ _ _
          (containsStr_append_right _ _ _ (containsStr_refl _)))
      · exact containsStr_append_right _ _ _ (containsStr_refl _)
      · intro a ha
        exact containsStr_append_right _ _ _ (stringsJoin_contains ", " available a ha)
    · simp at hmsg

/-- C5, witness: the pod `api-9` is not among `api-1`, `api-2`; the error names
the kind, the pod and both candidates. -/
theorem validateResource_error_iff_witness :
    validateResource "pod" "api-9" ["api-1", "api-2"]
        = some "pod api-9 not found, available: api-1, api-2" ∧
    containsStr "pod api-9 not found, available: api-1, api-2" "api-2" :=
  ⟨by decide,
   ((validateResource_error_iff "pod" "api-9" ["api-1", "api-2"]).2
      "pod api-9 not found, available: api-1, api-2" (by decide)).2.2.2.2 "api-2" (by decide)⟩

/-! ## Extensions of a trace -/

theorem Ext.refl (Q : Action → Prop) (t : List Action) : Ext Q t t :=
  ⟨[], by simp, by simp⟩

theorem Ext.snoc {Q : Action → Prop} {t t2 : List Action} {a : Action} (h : Ext Q t t2)
    (ha : Q a) : Ext Q t (t2 ++ [a]) := by
  obtain ⟨ext, rfl, hq⟩ := h
  refine ⟨ext ++ [a], by simp, ?_⟩
  intro b hb
  rcases List.mem_append.1 hb with h1 | h1
  · exact hq b h1
  · have : b = a := by simpa using h1
    exact this ▸ ha

theorem Ext.trans {Q : Action → Prop} {t t2 t3 : List Action} (h : Ext Q t t2)
    (h2 : Ext Q t2 t3) : Ext Q t t3 := by
  obtain ⟨e1, rfl, hq1⟩ := h
  obtain ⟨e2, rfl, hq2⟩ := h2
  refine ⟨e1 ++ e2, by simp, ?_⟩
  intro b hb
  rcases List.mem_append.1 hb with h1 | h1
  · exact hq1 b h1
  · exact hq2 b h1

theorem ext_perform {Q : Action → Prop} {t : List Action} (c : Collab σ) (a : Action)
    (w : World σ) (h : Ext Q t w.trace) (ha : Q a) : Ext Q t (perform c a w).2.trace :=
  h.snoc ha

theorem ext_run {Q : Action → Prop} {t : List Action} (c : Collab σ) (cmd : Cmd)
    (w : World σ) (h : Ext Q t w.trace) (ha : Q (Action.run cmd)) :
    Ext Q t (run c cmd w).2.trace :=
  h.snoc ha

theorem ext_logf {Q : Action → Prop} {t : List Action} (level msg : String)
    (w : World σ) (h : Ext Q t w.trace) (ha : Q (Action.log level msg)) :
    Ext Q t (logf level msg w).trace :=
  h.snoc ha

/-! ## The cleanup -/

theorem DelveCleanup_trace (lib : Lib) (c : Collab σ) (d : Deployment)
    (pod container : String) (w : World σ) (hp : deploymentIsPatched lib d = true) :
    (DelveCleanup lib c d pod container w).2.trace = w.trace ++ cleanupActions d pod container := by
  simp [DelveCleanup, hp, run, perform, logf, cleanupActions]

/-- C10: on a deployment that carries the patch marker, `DelveCleanup` issues
its three sub-actions in order, whatever each of them returns (the removal of
the service exposure, `pkill -9 dlv`, `pkill -9 <deployment name>`, with the
two log lines), and returns no error. -/
theorem DelveCleanup_attempts_all (lib : Lib) (c : Collab σ) (d : Deployment)
    (pod container : String) (w : World σ)
    (h : lib.defaultPatchedLabel ∈ keysOf (podTemplateLabels d)) :
    (DelveCleanup lib c d pod container w).1 = ("", none) ∧
    (DelveCleanup lib c d pod container w).2.trace = w.trace ++ cleanupActions d pod container := by
  have hp := (deploymentIsPatched_eq_true lib d).2 h
  simp [DelveCleanup, hp, run, perform, logf, cleanupActions]

/-- C10, witness: with collaborators that fail on every call, the cleanup of
the sample patched deployment still issues all its actions and returns no error. -/
theorem DelveCleanup_attempts_all_witness :
    (DelveCleanup sampleLib allFail patchedDeployment "api-1" "app" World.init).1 = ("", none) ∧
    (DelveCleanup sampleLib allFail patchedDeployment "api-1" "app" World.init).2.trace
      = cleanupActions patchedDeployment "api-1" "app" :=
  DelveCleanup_attempts_all sampleLib allFail patchedDeployment "api-1" "app" World.init
    (by decide)

/-! ## Patch: the build and the image -/

theorem ext_buildDummy {Q : Action → Prop} {t : List Action} (c : Collab σ)
    (image tag path : String) (w : World σ) (h : Ext Q t w.trace)
    (ha : Q (Action.run (Cmd.command ["docker", "build", ".", "--build-arg",
      "IMAGE=" ++ image ++ ":" ++ tag, "-t", "dummy:latest"] (some path) []))) :
    Ext Q t (buildDummy c image tag path w).2.trace :=
  h.snoc ha

theorem ext_renderTemplate {Q : Action → Prop} {t : List Action} (c : Collab σ)
    (path : String) (values : patchValues) (w : World σ) (h : Ext Q t w.trace)
    (h1 : Q (Action.parseFiles path)) (h2 : Q (Action.executeTemplate path values)) :
    Ext Q t (renderTemplate c path values w).2.trace := by
  simp only [renderTemplate]
  repeat' split
  all_goals
    repeat (first | exact h | apply ext_perform)
  all_goals assumption

theorem ext_copyArgsToPod {Q : Action → Prop} {t : List Action} (lib : Lib) (c : Collab σ)
    (d : Deployment) (pod container : String) (w : World σ) (h : Ext Q t w.trace)
    (h1 : ∀ path data, Q (Action.generateYaml path data))
    (h2 : ∀ p ct ns src dst, Q (Action.run (Cmd.copyToPod p ct ns src dst))) :
    Ext Q t (copyArgsToPod lib c d pod container w).2.trace := by
  simp only [copyArgsToPod]
  repeat' split
  all_goals
    repeat (first | exact h | apply ext_perform | apply ext_run)
  all_goals first | exact h1 _ _ | exact h2 _ _ _ _ _

theorem patchSteps_ext (lib : Lib) (c : Collab σ) (d : Deployment)
    (container image tag hostPath : String) (w : World σ) :
    Ext (isPatchAction lib d container image tag hostPath) w.trace
      (patchSteps lib c d container image tag hostPath w).2.trace := by
  simp only [patchSteps]
  repeat' split
  all_goals
    repeat first
      | exact Ext.refl _ _
      | apply ext_logf
      | apply ext_perform
      | apply ext_run
      | apply ext_buildDummy
      | apply ext_renderTemplate
      | apply ext_copyArgsToPod
  all_goals simp [isPatchAction]

theorem issued_of_ext {Q : Action → Prop} (w w2 : World σ) (h : Ext Q w.trace w2.trace) :
    w2.trace = w.trace ++ issued w w2 ∧ ∀ a ∈ issued w w2, Q a := by
  obtain ⟨ext, he, hq⟩ := h
  have : issued w w2 = ext := by simp [issued, he]
  rw [this]
  exact ⟨he, hq⟩

theorem Rollback_patched (lib : Lib) (c : Collab σ) (d : Deployment) (w : World σ)
    (hp : deploymentIsPatched lib d = true) :
    (Rollback lib c d w).2
      = (run c (Cmd.rollbackDeployment d.ObjectMeta.Name d.ObjectMeta.Namespace)
          (logf "info" ("rolling back deployment " ++ d.ObjectMeta.Name) w)).2 ∧
    (Rollback lib c d w).1.2
      = (run c (Cmd.rollbackDeployment d.ObjectMeta.Name d.ObjectMeta.Namespace)
          (logf "info" ("rolling back deployment " ++ d.ObjectMeta.Name) w)).1.2 ∧
    ((Rollback lib c d w).1.2 ≠ none →
      (Rollback lib c d w).1.1
        = (run c (Cmd.rollbackDeployment d.ObjectMeta.Name d.ObjectMeta.Namespace)
            (logf "info" ("rolling back deployment " ++ d.ObjectMeta.Name) w)).1.1) := by
  simp only [Rollback, hp, Bool.not_true, Bool.false_eq_true, if_false]
  split <;> simp_all

theorem Patch_ext (lib : Lib) (c : Collab σ) (d : Deployment)
    (container image tag hostPath : String) (w : World σ) :
    Ext (isPatchAction lib d container image tag hostPath) w.trace
      (Patch lib c d container image tag hostPath w).2.trace := by
  have hsteps := fun v => patchSteps_ext lib c d container image tag hostPath v
  by_cases hp : deploymentIsPatched lib d = true
  · have hr := fun v => (Rollback_patched lib c d v hp).1
    have hw : Ext (isPatchAction lib d container image tag hostPath) w.trace
        (Rollback lib c d
          (logf "warning" "deployment already patched, running rollback first" w)).2.trace := by
      rw [hr]
      repeat first
        | apply ext_logf
        | apply ext_run
        | exact Ext.refl _ _
      all_goals simp [isPatchAction]
    simp only [Patch, hp, if_true]
    split
    · exact hw
    · exact Ext.trans hw (hsteps _)
  · simp only [Patch, hp, if_false]
    exact hsteps w

theorem Patch_all_succeed (lib : Lib) (c : Collab σ) (d : Deployment)
    (container image tag hostPath : String) (w : World σ)
    (hs : ∀ a s, (c.respond a s).1.2 = none) :
    (Patch lib c d container image tag hostPath w).1.2 = none ∧
    dummyBuild lib image tag ∈ issued w (Patch lib c d container image tag hostPath w).2 ∧
    Action.executeTemplate
        (lib.pathJoin [lib.pathJoin [lib.tempDir, "dummy"], lib.devDeploymentPatchFile])
        (newPatchValues lib d.ObjectMeta.Name container hostPath)
      ∈ issued w (Patch lib c d container image tag hostPath w).2 := by
  by_cases hp : deploymentIsPatched lib d = true
  · simp [Patch, Rollback, patchSteps, buildDummy, renderTemplate, copyArgsToPod, run, perform,
      logf, hs, hp, issued, dummyBuild]
  · simp [Patch, Rollback, patchSteps, buildDummy, renderTemplate, copyArgsToPod, run, perform,
      logf, hs, hp, issued, dummyBuild]

/-- C7, as stated, fails for `image = "api"`, `tag = "dbg"`: the run of `Patch`
on the sample unpatched deployment, with collaborators that all succeed, builds
with `-t dummy:latest` and hands `api:dbg` over as the build argument `IMAGE`;
the image in the values of the patch template is `dummy:latest`, not `api:dbg`. -/
theorem Patch_image_counterexample :
    (Patch sampleLib allSucceed unpatchedDeployment "app" "api" "dbg" "/src" World.init).2.trace
      = [Action.log "info" "extracting dummy files",
         Action.restoreAssets "/tmp" "dummy",
         Action.log "info" "building dummy image with api:dbg",
         Action.run (Cmd.command
           ["docker", "build", ".", "--build-arg", "IMAGE=api:dbg", "-t", "dummy:latest"]
           (some "/tmp/dummy") []),
         Action.log "info" "rendering deployment patch template",
         Action.parseFiles "/tmp/dummy/deployment-patch.yaml",
         Action.executeTemplate "/tmp/dummy/deployment-patch.yaml"
           { PatchedLabelName := "dev-mode-patched", ContainerName := "app",
             MountPath := "/api-mount", HostPath := "/src", Image := "dummy:latest" },
         Action.log "info" "waiting for deployment to get ready",
         Action.run (Cmd.waitForRollout "api" "default" "30s"),
         Action.log "info" "patching deployment for development",
         Action.run (Cmd.patchDeployment "" "api" "default"),
         Action.log "info" "getting most recent pod with selector from deployment api",
         Action.getMostRecentPodBySelectors [("app", "api")] "default",
         Action.log "info" "waiting for pod  with \"condition=ContainersReady\"",
         Action.run (Cmd.waitForPodState "default" "" "condition=ContainersReady" "30s"),
         Action.log "info" "copying deployment api args into pod ",
         Action.generateYaml "/tmp/args.yaml" ["--port=80"],
         Action.run (Cmd.copyToPod "" "app" "default" "/tmp/args.yaml" "/args.yaml")] ∧
    (newPatchValues sampleLib "api" "app" "/src").Image ≠ "api:dbg" := by
  constructor <;> decide

/-- C7 (amended): for every image and tag, the only local command `Patch`
issues is `docker build . --build-arg IMAGE=<image>:<tag> -t dummy:latest`, run
in the extracted dummy project: the built image is tagged `dummy:latest` and
`<image>:<tag>` is the build argument `IMAGE`; the values `Patch` renders the
patch template with are those of `newPatchValues`, whose image is
`dummy:latest`.  When no collaborator fails, `Patch` succeeds and has issued
that build and that rendering. -/
theorem Patch_build_and_image (lib : Lib) (c : Collab σ) (d : Deployment)
    (container image tag hostPath : String) (w : World σ) :
    (Patch lib c d container image tag hostPath w).2.trace
      = w.trace ++ issued w (Patch lib c d container image tag hostPath w).2 ∧
    (∀ args cwd env, Action.run (Cmd.command args cwd env)
        ∈ issued w (Patch lib c d container image tag hostPath w).2 →
      args = ["docker", "build", ".", "--build-arg", "IMAGE=" ++ image ++ ":" ++ tag,
        "-t", "dummy:latest"] ∧ cwd = some (lib.pathJoin [lib.tempDir, "dummy"]) ∧ env = []) ∧
    (∀ path values, Action.executeTemplate path values
        ∈ issued w (Patch lib c d container image tag hostPath w).2 →
      values = newPatchValues lib d.ObjectMeta.Name container hostPath ∧
      values.Image = "dummy:latest") ∧
    ((∀ a s, (c.respond a s).1.2 = none) →
      (Patch lib c d container image tag hostPath w).1.2 = none ∧
      dummyBuild lib image tag ∈ issued w (Patch lib c d container image tag hostPath w).2 ∧
      Action.executeTemplate
          (lib.pathJoin [lib.pathJoin [lib.tempDir, "dummy"], lib.devDeploymentPatchFile])
          (newPatchValues lib d.ObjectMeta.Name container hostPath)
        ∈ issued w (Patch lib c d container image tag hostPath w).2) := by
  obtain ⟨h1, h2⟩ := issued_of_ext w _ (Patch_ext lib c d container image tag hostPath w)
  refine ⟨h1, ?_, ?_, Patch_all_succeed lib c d container image tag hostPath w⟩
  · intro args cwd env hmem
    simpa [isPatchAction] using h2 _ hmem
  · intro path values hmem
    have := h2 _ hmem
    simp only [isPatchAction] at this
    subst this
    exact ⟨rfl, rfl⟩

/-- C7, witness: on the sample unpatched deployment with collaborators that
all succeed, `Patch` with `image = "api"`, `tag = "dbg"` succeeds and has
issued the build tagged `dummy:latest` with the build argument `IMAGE=api:dbg`. -/
theorem Patch_build_and_image_witness :
    (Patch sampleLib allSucceed unpatchedDeployment "app" "api" "dbg" "/src" World.init).1.2 = none ∧
    Action.run (Cmd.command
        ["docker", "build", ".", "--build-arg", "IMAGE=api:dbg", "-t", "dummy:latest"]
        (some "/tmp/dummy") [])
      ∈ issued World.init
          (Patch sampleLib allSucceed unpatchedDeployment "app" "api" "dbg" "/src" World.init).2 :=
  ⟨((Patch_build_and_image sampleLib allSucceed unpatchedDeployment "app" "api" "dbg" "/src"
      World.init).2.2.2 (fun _ _ => rfl)).1,
   ((Patch_build_and_image sampleLib allSucceed unpatchedDeployment "app" "api" "dbg" "/src"
      World.init).2.2.2 (fun _ _ => rfl)).2.1⟩

/-! ## Patch on a patched deployment -/

theorem patchSteps_congr (lib : Lib) (c : Collab σ) (d d2 : Deployment)
    (container image tag hostPath : String) (w : World σ)
    (h1 : d2.ObjectMeta = d.ObjectMeta) (h2 : d2.Spec.Selector = d.Spec.Selector)
    (h3 : d2.Spec.Template.Spec = d.Spec.Template.Spec) :
    patchSteps lib c d2 container image tag hostPath w
      = patchSteps lib c d container image tag hostPath w := by
  simp only [patchSteps, copyArgsToPod, h1, h2, h3]

/-- C6, as stated, fails when the revision rollback fails: on the sample
patched deployment, with a cluster whose rollback fails, `Patch` returns the
error of the rollback after the rollback, and goes no further. -/
theorem Patch_rollback_fails_counterexample :
    sampleLib.defaultPatchedLabel ∈ keysOf (podTemplateLabels patchedDeployment) ∧
    (Patch sampleLib rollbackFails patchedDeployment "app" "api" "dbg" "/src" World.init).1
      = ("no revision", some "rollback failed") ∧
    (Patch sampleLib rollbackFails patchedDeployment "app" "api" "dbg" "/src" World.init).2.trace
      = [Action.log "warning" "deployment already patched, running rollback first",
         Action.log "info" "rolling back deployment api",
         Action.run (Cmd.rollbackDeployment "api" "default")] := by
  refine ⟨by decide, by decide, by decide⟩

/-- C6 (amended): on a deployment that carries the patch marker, `Patch` logs a
warning and triggers the revision rollback as its first action on the cluster.
If the rollback fails, `Patch` returns its output and its error and issues
nothing more.  If the rollback succeeds, `Patch` goes on, from the world the
rollback left, exactly as `Patch` does on a deployment without the marker that
has the same name, namespace, selector and pod spec. -/
theorem Patch_on_patched (lib : Lib) (c : Collab σ) (d : Deployment)
    (container image tag hostPath : String) (w : World σ)
    (h : lib.defaultPatchedLabel ∈ keysOf (podTemplateLabels d)) :
    (∃ rest, (Patch lib c d container image tag hostPath w).2.trace
      = w.trace ++ rollbackActions d ++ rest) ∧
    (∀ err, (c.respond (Action.run (Cmd.rollbackDeployment d.ObjectMeta.Name
          d.ObjectMeta.Namespace)) w.state).1.2 = some err →
      (Patch lib c d container image tag hostPath w).1
        = ((c.respond (Action.run (Cmd.rollbackDeployment d.ObjectMeta.Name
            d.ObjectMeta.Namespace)) w.state).1.1, some err) ∧
      (Patch lib c d container image tag hostPath w).2.trace = w.trace ++ rollbackActions d) ∧
    ((c.respond (Action.run (Cmd.rollbackDeployment d.ObjectMeta.Name
          d.ObjectMeta.Namespace)) w.state).1.2 = none →
      ∀ d2 : Deployment, d2.ObjectMeta = d.ObjectMeta → d2.Spec.Selector = d.Spec.Selector →
        d2.Spec.Template.Spec = d.Spec.Template.Spec →
        lib.defaultPatchedLabel ∉ keysOf (podTemplateLabels d2) →
        Patch lib c d container image tag hostPath w
          = Patch lib c d2 container image tag hostPath
              { state := (c.respond (Action.run (Cmd.rollbackDeployment d.ObjectMeta.Name
                  d.ObjectMeta.Namespace)) w.state).2,
                trace := w.trace ++ rollbackActions d }) := by
  have hp := (deploymentIsPatched_eq_true lib d).2 h
  have hr := Rollback_patched lib c d
    (logf "warning" "deployment already patched, running rollback first" w) hp
  have hw : (Rollback lib c d
      (logf "warning" "deployment already patched, running rollback first" w)).2
      = { state := (c.respond (Action.run (Cmd.rollbackDeployment d.ObjectMeta.Name
            d.ObjectMeta.Namespace)) w.state).2,
          trace := w.trace ++ rollbackActions d } := by
    rw [hr.1]
    simp [run, perform, logf, rollbackActions]
  have he : (Rollback lib c d
      (logf "warning" "deployment already patched, running rollback first" w)).1.2
      = (c.respond (Action.run (Cmd.rollbackDeployment d.ObjectMeta.Name
            d.ObjectMeta.Namespace)) w.state).1.2 := by
    rw [hr.2.1]
    simp [run, perform, logf]
  have ho : (Rollback lib c d
      (logf "warning" "deployment already patched, running rollback first" w)).1.2 ≠ none →
      (Rollback lib c d
        (logf "warning" "deployment already patched, running rollback first" w)).1.1
      = (c.respond (Action.run (Cmd.rollbackDeployment d.ObjectMeta.Name
            d.ObjectMeta.Namespace)) w.state).1.1 := by
    intro hne
    rw [hr.2.2 hne]
    simp [run, perform, logf]
  refine ⟨?_, ?_, ?_⟩
  · cases hc : (c.respond (Action.run (Cmd.rollbackDeployment d.ObjectMeta.Name
        d.ObjectMeta.Namespace)) w.state).1.2 with
    | some err =>
      refine ⟨[], ?_⟩
      simp only [Patch, hp, if_true, he, hc, hw, List.append_nil]
    | none =>
      obtain ⟨ext, hext, -⟩ := patchSteps_ext lib c d container image tag hostPath
        { state := (c.respond (Action.run (Cmd.rollbackDeployment d.ObjectMeta.Name
            d.ObjectMeta.Namespace)) w.state).2,
          trace := w.trace ++ rollbackActions d }
      refine ⟨ext, ?_⟩
      simp only [Patch, hp, if_true, he, hc, hw]
      exact hext
  · intro err hc
    have hne : (Rollback lib c d
        (logf "warning" "deployment already patched, running rollback first" w)).1.2 ≠ none := by
      rw [he, hc]
      simp
    simp only [Patch, hp, if_true, he, hc, hw, ho hne, and_self]
  · intro hc d2 h1 h2 h3 h4
    have hp2 := deploymentIsPatched_eq_false lib d2 h4
    simp only [Patch, hp, hp2, if_true, if_false, he, hc, hw, Bool.false_eq_true]
    exact (patchSteps_congr lib c d d2 container image tag hostPath _ h1 h2 h3).symm

/-- C6, witness: `Patch` on the sample patched deployment, with collaborators
that all succeed, is the rollback followed by `Patch` on the sample deployment
without the marker. -/
theorem Patch_on_patched_witness :
    Patch sampleLib allSucceed patchedDeployment "app" "api" "dbg" "/src" World.init
      = Patch sampleLib allSucceed unpatchedDeployment "app" "api" "dbg" "/src"
          { state := (), trace := rollbackActions patchedDeployment } :=
  (Patch_on_patched sampleLib allSucceed patchedDeployment "app" "api" "dbg" "/src" World.init
    (by decide)).2.2 rfl unpatchedDeployment rfl rfl rfl (by decide)

/-! ## The debug session and its deferred cleanup -/

theorem ext_tryCallLoop {Q : Action → Prop} (c : Collab σ)
    (f : Int → Int → World σ → Option String × World σ) (tries : Int)
    (hf : ∀ i (w : World σ) t, Ext Q t w.trace → Ext Q t (f i tries w).2.trace)
    (hs : Q (Action.sleep timeSecond)) :
    ∀ (l : List Int) (err : Option String) (w : World σ) (t : List Action),
      Ext Q t w.trace → Ext Q t (tryCallLoop c f tries l err w).2.trace := by
  intro l
  induction l with
  | nil =>
    intro err w t h
    exact h
  | cons i rest ih =>
    intro err w t h
    simp only [tryCallLoop]
    split
    · exact hf i w t h
    · exact ih _ _ t (ext_perform c _ _ (hf i w t h) hs)

theorem ext_tryCall {Q : Action → Prop} (c : Collab σ)
    (f : Int → Int → World σ → Option String × World σ) (tries sleep : Int)
    (hf : ∀ i (w : World σ) t, Ext Q t w.trace → Ext Q t (f i tries w).2.trace)
    (hs : Q (Action.sleep timeSecond)) (w : World σ) (t : List Action)
    (h : Ext Q t w.trace) : Ext Q t (tryCall c f tries sleep w).2.trace :=
  ext_tryCallLoop c f tries hf hs _ _ w t h

theorem notCleanup_checkDelveServer (c : Collab σ) (host : String) (port timeout : Int)
    (w : World σ) (t : List Action) (h : Ext notCleanup t w.trace) :
    Ext notCleanup t (checkDelveServer c host port timeout w).2.trace := by
  simp only [checkDelveServer]
  repeat' split
  all_goals
    repeat first
      | exact h
      | apply ext_perform
  all_goals simp [notCleanup, isCleanupAction]

theorem notCleanup_tryDelveServer (c : Collab σ) (host : String) (port tries sleep : Int)
    (w : World σ) (t : List Action) (h : Ext notCleanup t w.trace) :
    Ext notCleanup t (tryDelveServer c host port tries sleep w).2.trace := by
  have hcall : Ext notCleanup t (tryCall c (delveServerUnit c host port) tries sleep w).2.trace := by
    apply ext_tryCall
    · intro i v t2 hv
      simp only [delveServerUnit]
      apply notCleanup_checkDelveServer
      apply ext_logf _ _ _ hv
      simp [notCleanup, isCleanupAction]
    · simp [notCleanup, isCleanupAction]
    · exact h
  simp only [tryDelveServer]
  split
  · exact hcall
  · apply ext_logf _ _ _ hcall
    simp [notCleanup, isCleanupAction]

theorem notCleanup_runOpen (lib : Lib) (c : Collab σ) (path : String)
    (w : World σ) (t : List Action) (h : Ext notCleanup t w.trace) :
    Ext notCleanup t (runOpen lib c path w).2.trace := by
  simp only [runOpen]
  repeat' split
  all_goals
    repeat first
      | exact h
      | apply ext_run
  all_goals simp [notCleanup, isCleanupAction]

theorem notCleanup_launchVscode (lib : Lib) (c : Collab σ) (pod host : String)
    (port tries sleep : Int) (w : World σ) (t : List Action) (h : Ext notCleanup t w.trace) :
    Ext notCleanup t (launchVscode lib c pod host port tries sleep w).2.trace := by
  have hcode : Ext notCleanup t (runPostEnd c (Cmd.command ["code", "."] none [])
      (tryCall c (vscodeStatusUnit c) tries sleep) w).2.trace := by
    have hhook : Ext notCleanup t (tryCall c (vscodeStatusUnit c) tries sleep
        (perform c (Action.run (Cmd.command ["code", "."] none [])) w).2).2.trace := by
      apply ext_tryCall
      · intro i v t2 hv
        simp only [vscodeStatusUnit]
        apply ext_run
        · apply ext_logf _ _ _ hv
          simp [notCleanup, isCleanupAction]
        · simp [notCleanup, isCleanupAction]
      · simp [notCleanup, isCleanupAction]
      · apply ext_perform _ _ _ h
        simp [notCleanup, isCleanupAction]
    simp only [runPostEnd]
    split <;> exact hhook
  have hlog : Ext notCleanup t (logf "info" "opening debug configuration"
      (runPostEnd c (Cmd.command ["code", "."] none [])
        (tryCall c (vscodeStatusUnit c) tries sleep) w).2).trace := by
    apply ext_logf _ _ _ hcode
    simp [notCleanup, isCleanupAction]
  simp only [launchVscode]
  split
  · exact hlog
  · split <;> exact notCleanup_runOpen lib c _ _ t hlog

theorem notCleanup_delveHook (lib : Lib) (c : Collab σ) (pod host : String) (port : Int)
    (vscode : Bool) (w : World σ) (t : List Action) (h : Ext notCleanup t w.trace) :
    Ext notCleanup t (delveHook lib c pod host port vscode w).2.trace := by
  have htry := notCleanup_tryDelveServer c host port 5 (1 * timeSecond) w t h
  simp only [delveHook]
  split
  · exact htry
  · split
    · split <;> exact notCleanup_launchVscode lib c pod host port 5 (1 * timeSecond) _ t htry
    · exact htry

theorem notCleanup_delveExec (lib : Lib) (c : Collab σ) (d : Deployment) (pod container : String)
    (args : List String) (delveContinue : Bool) (host : String) (port : Int) (vscode : Bool)
    (w : World σ) (t : List Action) (h : Ext notCleanup t w.trace) :
    Ext notCleanup t
      (delveExec lib c d pod container args delveContinue host port vscode w).2.trace := by
  have hstart : Ext notCleanup t (perform c (Action.start (Cmd.execPod pod container
      d.ObjectMeta.Namespace (delveCommand d port delveContinue args))) w).2.trace := by
    apply ext_perform _ _ _ h
    simp [notCleanup, isCleanupAction]
  have hwait : Ext notCleanup t (perform c (Action.wait (Cmd.execPod pod container
      d.ObjectMeta.Namespace (delveCommand d port delveContinue args)))
      (delveHook lib c pod host port vscode (perform c (Action.start (Cmd.execPod pod container
        d.ObjectMeta.Namespace (delveCommand d port delveContinue args))) w).2).2).2.trace := by
    apply ext_perform _ _ _ (notCleanup_delveHook lib c pod host port vscode _ t hstart)
    simp [notCleanup, isCleanupAction]
  simp only [delveExec, runPostStart]
  split
  · exact hstart
  · split <;> exact hwait

theorem notCleanup_delveSession (lib : Lib) (c : Collab σ) (d : Deployment)
    (pod container : String) (args : List String) (delveContinue : Bool) (host : String)
    (port : Int) (vscode : Bool) (w : World σ) (t : List Action)
    (h : Ext notCleanup t w.trace) :
    Ext notCleanup t
      (delveSession lib c d pod container args delveContinue host port vscode w).2.trace := by
  have hlog : Ext notCleanup t (logf "info" ("executing delve command on pod " ++ pod)
      (signalCapture c w)).trace := by
    apply ext_logf
    · apply ext_perform _ _ _ h
      simp [notCleanup, isCleanupAction]
    · simp [notCleanup, isCleanupAction]
  have hcat : Ext notCleanup t (run c (Cmd.execPod pod container d.ObjectMeta.Namespace
      ["cat", "/args.yaml"]) (logf "info" ("executing delve command on pod " ++ pod)
        (signalCapture c w))).2.trace := by
    apply ext_run _ _ _ hlog
    simp [notCleanup, isCleanupAction]
  have hargs : Ext notCleanup t (getArgsFromPod lib c d.ObjectMeta.Namespace pod container
      (logf "info" ("executing delve command on pod " ++ pod) (signalCapture c w))).2.trace := by
    simp only [getArgsFromPod]
    split
    · exact hcat
    · split <;> exact hcat
  simp only [delveSession]
  split
  · split
    · exact hargs
    · exact notCleanup_delveExec lib c d pod container _ delveContinue host port vscode _ t hargs
  · exact notCleanup_delveExec lib c d pod container _ delveContinue host port vscode _ t hlog

theorem notCleanup_delveSetup (lib : Lib) (c : Collab σ) (d : Deployment)
    (pod container input host : String) (port : Int) (w : World σ) (t : List Action)
    (h : Ext notCleanup t w.trace) :
    Ext notCleanup t (delveSetup lib c d pod container input host port w).2.trace := by
  simp only [delveSetup, debugBuild]
  repeat' split
  all_goals
    repeat first
      | exact h
      | apply ext_logf
      | apply ext_run
  all_goals simp [notCleanup, isCleanupAction]

/-- C8: on a deployment that carries the patch marker, once the pod is exposed
(the steps of `Delve` up to the exposure all succeeded), the trace of `Delve`
ends with the actions of exactly one `DelveCleanup(deployment, pod,
container)`, and no cleanup action is issued before them; this holds whatever
the session returns, be it the `"", nil` that follows the remote exec call,
failed or not, or the error of reading the injected arguments back. -/
theorem Delve_cleanup_once (lib : Lib) (c : Collab σ) (d : Deployment)
    (pod container input : String) (args : List String) (delveContinue : Bool) (host : String)
    (port : Int) (vscode : Bool) (w : World σ)
    (h : lib.defaultPatchedLabel ∈ keysOf (podTemplateLabels d))
    (hexposed : (delveSetup lib c d pod container input host port w).1.2 = none) :
    (∃ before, (Delve lib c d pod container input args delveContinue host port vscode w).2.trace
        = w.trace ++ before ++ cleanupActions d pod container ∧
      ∀ a ∈ before, isCleanupAction a = false) ∧
    (Delve lib c d pod container input args delveContinue host port vscode w).2
      = (DelveCleanup lib c d pod container
          (delveSession lib c d pod container args delveContinue host port vscode
            (delveSetup lib c d pod container input host port w).2).2).2 ∧
    (Delve lib c d pod container input args delveContinue host port vscode w).1
      = (delveSession lib c d pod container args delveContinue host port vscode
          (delveSetup lib c d pod container input host port w).2).1 := by
  have hp := (deploymentIsPatched_eq_true lib d).2 h
  have hD : Delve lib c d pod container input args delveContinue host port vscode w
      = ((delveSession lib c d pod container args delveContinue host port vscode
          (delveSetup lib c d pod container input host port w).2).1,
         (DelveCleanup lib c d pod container
          (delveSession lib c d pod container args delveContinue host port vscode
            (delveSetup lib c d pod container input host port w).2).2).2) := by
    simp only [Delve, hp, hexposed, Bool.not_true, Bool.false_eq_true, if_false]
  obtain ⟨before, hb, hq⟩ := notCleanup_delveSession lib c d pod container args delveContinue
    host port vscode _ w.trace
    (notCleanup_delveSetup lib c d pod container input host port w w.trace (Ext.refl _ _))
  refine ⟨⟨before, ?_, hq⟩, by rw [hD], by rw [hD]⟩
  rw [hD]
  simp only []
  rw [(DelveCleanup_trace lib c d pod container _ hp), hb]

/-- C8, witness: on the sample patched deployment, with a debugger that
never answers, the pod is exposed and the trace of `Delve` ends with the actions
of one cleanup. -/
theorem Delve_cleanup_once_witness :
    ∃ before,
      (Delve sampleLib pollFails patchedDeployment "api-1" "app" "./cmd/api" [] true
          "127.0.0.1" 2345 false World.init).2.trace
        = World.init.trace ++ before ++ cleanupActions patchedDeployment "api-1" "app" ∧
      ∀ a ∈ before, isCleanupAction a = false :=
  (Delve_cleanup_once sampleLib pollFails patchedDeployment "api-1" "app" "./cmd/api" [] true
    "127.0.0.1" 2345 false World.init (by decide) (by decide)).1

/-! ## The readiness poll -/

/-- C9, at the failing input: on the sample patched deployment, with a
debugger that never answers, the readiness poll fails on each of its 5
attempts and `tryDelveServer` returns the error of the last one, the hook
returns that error, and `Delve` returns `"", nil`. -/
theorem Delve_drops_poll_failure :
    (tryDelveServer pollFails "127.0.0.1" 2345 5 (1 * timeSecond) World.init).1
      = some "connection refused" ∧
    (delveHook sampleLib pollFails "api-1" "127.0.0.1" 2345 false World.init).1
      = some "connection refused" ∧
    ((Delve sampleLib pollFails patchedDeployment "api-1" "app" "./cmd/api" ["--port=80"] false
        "127.0.0.1" 2345 false World.init).2.trace.filter
      (fun a => a = Action.dialTimeout "127.0.0.1:2345" timeSecond)).length = 5 ∧
    (Delve sampleLib pollFails patchedDeployment "api-1" "app" "./cmd/api" ["--port=80"] false
        "127.0.0.1" 2345 false World.init).1 = ("", none) := by
  refine ⟨by decide, by decide, by decide, by decide⟩

/-! ## The remote command of a debug session -/

theorem delveCommand_eq_spec (d : Deployment) (port : Int) (delveContinue : Bool)
    (eff : List String) :
    delveCommand d port delveContinue eff
      = remoteCommandSpec d.ObjectMeta.Name port delveContinue eff := by
  cases eff <;> cases delveContinue <;> simp [delveCommand, remoteCommandSpec]

theorem startsOf_append (a b : List Action) : startsOf (a ++ b) = startsOf a ++ startsOf b := by
  induction a with
  | nil => rfl
  | cons x t ih => cases x <;> simp [startsOf, ih]

theorem notExec_observed {t t2 : List Action} (h : Ext notExec t t2) :
    startsOf t2 = startsOf t ∧ argsQueriesOf t2 = argsQueriesOf t := by
  obtain ⟨ext, rfl, hq⟩ := h
  have key : startsOf ext = [] ∧ argsQueriesOf ext = [] := by
    induction ext with
    | nil => exact ⟨rfl, rfl⟩
    | cons x e ih =>
      have hx := hq x (List.mem_cons_self _ _)
      have he := ih (fun a ha => hq a (List.mem_cons_of_mem _ ha))
      cases x <;> simp_all [startsOf, argsQueriesOf, notExec]
  simp [startsOf_append, argsQueriesOf, key.1]
  simpa [argsQueriesOf] using key.2

theorem notExec_checkDelveServer (c : Collab σ) (host : String) (port timeout : Int)
    (w : World σ) (t : List Action) (h : Ext notExec t w.trace) :
    Ext notExec t (checkDelveServer c host port timeout w).2.trace := by
  simp only [checkDelveServer]
  repeat' split
  all_goals
    repeat first
      | exact h
      | apply ext_perform
  all_goals simp [notExec, isArgsQuery]

theorem notExec_tryDelveServer (c : Collab σ) (host : String) (port tries sleep : Int)
    (w : World σ) (t : List Action) (h : Ext notExec t w.trace) :
    Ext notExec t (tryDelveServer c host port tries sleep w).2.trace := by
  have hcall : Ext notExec t (tryCall c (delveServerUnit c host port) tries sleep w).2.trace := by
    apply ext_tryCall
    · intro i v t2 hv
      simp only [delveServerUnit]
      apply notExec_checkDelveServer
      apply ext_logf _ _ _ hv
      simp [notExec, isArgsQuery]
    · simp [notExec, isArgsQuery]
    · exact h
  simp only [tryDelveServer]
  split
  · exact hcall
  · apply ext_logf _ _ _ hcall
    simp [notExec, isArgsQuery]

theorem notExec_runOpen (lib : Lib) (c : Collab σ) (path : String)
    (w : World σ) (t : List Action) (h : Ext notExec t w.trace) :
    Ext notExec t (runOpen lib c path w).2.trace := by
  simp only [runOpen]
  repeat' split
  all_goals
    repeat first
      | exact h
      | apply ext_run
  all_goals simp [notExec, isArgsQuery]

theorem notExec_launchVscode (lib : Lib) (c : Collab σ) (pod host : String)
    (port tries sleep : Int) (w : World σ) (t : List Action) (h : Ext notExec t w.trace) :
    Ext notExec t (launchVscode lib c pod host port tries sleep w).2.trace := by
  have hcode : Ext notExec t (runPostEnd c (Cmd.command ["code", "."] none [])
      (tryCall c (vscodeStatusUnit c) tries sleep) w).2.trace := by
    have hhook : Ext notExec t (tryCall c (vscodeStatusUnit c) tries sleep
        (perform c (Action.run (Cmd.command ["code", "."] none [])) w).2).2.trace := by
      apply ext_tryCall
      · intro i v t2 hv
        simp only [vscodeStatusUnit]
        apply ext_run
        · apply ext_logf _ _ _ hv
          simp [notExec, isArgsQuery]
        · simp [notExec, isArgsQuery]
      · simp [notExec, isArgsQuery]
      · apply ext_perform _ _ _ h
        simp [notExec, isArgsQuery]
    simp only [runPostEnd]
    split <;> exact hhook
  have hlog : Ext notExec t (logf "info" "opening debug configuration"
      (runPostEnd c (Cmd.command ["code", "."] none [])
        (tryCall c (vscodeStatusUnit c) tries sleep) w).2).trace := by
    apply ext_logf _ _ _ hcode
    simp [notExec, isArgsQuery]
  simp only [launchVscode]
  split
  · exact hlog
  · split <;> exact notExec_runOpen lib c _ _ t hlog

theorem notExec_delveHook (lib : Lib) (c : Collab σ) (pod host : String) (port : Int)
    (vscode : Bool) (w : World σ) (t : List Action) (h : Ext notExec t w.trace) :
    Ext notExec t (delveHook lib c pod host port vscode w).2.trace := by
  have htry := notExec_tryDelveServer c host port 5 (1 * timeSecond) w t h
  simp only [delveHook]
  split
  · exact htry
  · split
    · split <;> exact notExec_launchVscode lib c pod host port 5 (1 * timeSecond) _ t htry
    · exact htry

theorem notExec_delveSetup (lib : Lib) (c : Collab σ) (d : Deployment)
    (pod container input host : String) (port : Int) (w : World σ) (t : List Action)
    (h : Ext notExec t w.trace) :
    Ext notExec t (delveSetup lib c d pod container input host port w).2.trace := by
  simp only [delveSetup, debugBuild]
  repeat' split
  all_goals
    repeat first
      | exact h
      | apply ext_logf
      | apply ext_run
  all_goals simp [notExec, isArgsQuery]

theorem notExec_sessionStart (lib : Lib) (c : Collab σ) (d : Deployment)
    (pod container input host : String) (port : Int) (w : World σ) :
    Ext notExec w.trace (sessionStart lib c d pod container input host port w).trace := by
  simp only [sessionStart, signalCapture]
  apply ext_logf
  · apply ext_perform
    · exact notExec_delveSetup lib c d pod container input host port w _ (Ext.refl _ _)
    · simp [notExec, isArgsQuery]
  · simp [notExec, isArgsQuery]

theorem notExec_DelveCleanup (lib : Lib) (c : Collab σ) (d : Deployment)
    (pod container : String) (w : World σ) (t : List Action) (h : Ext notExec t w.trace) :
    Ext notExec t (DelveCleanup lib c d pod container w).2.trace := by
  simp only [DelveCleanup]
  split
  · exact h
  · repeat first
      | exact h
      | apply ext_logf
      | apply ext_run
    all_goals simp [notExec, isArgsQuery]

/-- The remote exec of `Delve` from a world `w`: the trace gets the start of
the command, then actions that are neither a start nor a read of the
injected arguments. -/
theorem delveExec_observed (lib : Lib) (c : Collab σ) (d : Deployment) (pod container : String)
    (args : List String) (delveContinue : Bool) (host : String) (port : Int) (vscode : Bool)
    (w : World σ) :
    Ext notExec (w.trace ++ [Action.start (Cmd.execPod pod container d.ObjectMeta.Namespace
        (delveCommand d port delveContinue args))])
      (delveExec lib c d pod container args delveContinue host port vscode w).2.trace := by
  have hstart : Ext notExec (w.trace ++ [Action.start (Cmd.execPod pod container
      d.ObjectMeta.Namespace (delveCommand d port delveContinue args))])
      (perform c (Action.start (Cmd.execPod pod container
      d.ObjectMeta.Namespace (delveCommand d port delveContinue args))) w).2.trace :=
    Ext.refl _ _
  have hwait : Ext notExec (w.trace ++ [Action.start (Cmd.execPod pod container
      d.ObjectMeta.Namespace (delveCommand d port delveContinue args))])
      (perform c (Action.wait (Cmd.execPod pod container
      d.ObjectMeta.Namespace (delveCommand d port delveContinue args)))
      (delveHook lib c pod host port vscode (perform c (Action.start (Cmd.execPod pod container
        d.ObjectMeta.Namespace (delveCommand d port delveContinue args))) w).2).2).2.trace := by
    apply ext_perform _ _ _ (notExec_delveHook lib c pod host port vscode _ _ hstart)
    simp [notExec, isArgsQuery]
  simp only [delveExec, runPostStart]
  split
  · exact hstart
  · split <;> exact hwait

theorem getArgsFromPod_injected (lib : Lib) (c : Collab σ) (d : Deployment)
    (pod container : String) (w : World σ) :
    (getArgsFromPod lib c d.ObjectMeta.Namespace pod container w).2
      = (perform c (argsQuery d pod container) w).2 ∧
    (∀ eff, injectedArguments lib c d pod container w.state = Except.ok eff →
      (getArgsFromPod lib c d.ObjectMeta.Namespace pod container w).1 = (eff, none)) ∧
    (∀ err, injectedArguments lib c d pod container w.state = Except.error err →
      (getArgsFromPod lib c d.ObjectMeta.Namespace pod container w).1 = ([], some err)) := by
  simp only [getArgsFromPod, injectedArguments, argsQuery, run, perform]
  cases h1 : (c.respond (Action.run (Cmd.execPod pod container d.ObjectMeta.Namespace
      ["cat", "/args.yaml"])) w.state).1.2 with
  | some e => simp
  | none =>
    cases h2 : lib.yamlUnmarshal (c.respond (Action.run (Cmd.execPod pod container
        d.ObjectMeta.Namespace ["cat", "/args.yaml"])) w.state).1.1 with
    | error e => simp
    | ok l => simp

theorem Delve_exposed (lib : Lib) (c : Collab σ) (d : Deployment)
    (pod container input : String) (args : List String) (delveContinue : Bool) (host : String)
    (port : Int) (vscode : Bool) (w : World σ) (hp : deploymentIsPatched lib d = true)
    (hexposed : (delveSetup lib c d pod container input host port w).1.2 = none) :
    Delve lib c d pod container input args delveContinue host port vscode w
      = ((delveSession lib c d pod container args delveContinue host port vscode
          (delveSetup lib c d pod container input host port w).2).1,
         (DelveCleanup lib c d pod container
          (delveSession lib c d pod container args delveContinue host port vscode
            (delveSetup lib c d pod container input host port w).2).2).2) := by
  simp only [Delve, hp, hexposed, Bool.not_true, Bool.false_eq_true, if_false]

/-- C11: let `Delve` run on a deployment that carries the patch marker and get
past the exposure of the pod.  The command `Delve` builds is the one of the
spec: `dlv exec /<deployment name> --api-version=2 --headless --listen=:<port>
--accept-multiclient`, then `--continue` exactly when the continue flag is set,
then `--` and the effective arguments exactly when there are any.  With
arguments from the caller, `Delve` starts that command once, in the pod and
container, with the caller's arguments, and does not read the injected
arguments.  Without, it reads the injected-arguments file once; if that gives a
list, it starts the command once with exactly that list; if that fails, nothing
is started and `Delve` returns the error. -/
theorem Delve_remote_command (lib : Lib) (c : Collab σ) (d : Deployment)
    (pod container input : String) (args : List String) (delveContinue : Bool) (host : String)
    (port : Int) (vscode : Bool) (w : World σ)
    (h : lib.defaultPatchedLabel ∈ keysOf (podTemplateLabels d))
    (hexposed : (delveSetup lib c d pod container input host port w).1.2 = none) :
    (∀ eff, delveCommand d port delveContinue eff
      = remoteCommandSpec d.ObjectMeta.Name port delveContinue eff) ∧
    (args ≠ [] →
      startsOf (Delve lib c d pod container input args delveContinue host port vscode w).2.trace
        = startsOf w.trace ++ [Cmd.execPod pod container d.ObjectMeta.Namespace
            (remoteCommandSpec d.ObjectMeta.Name port delveContinue args)] ∧
      argsQueriesOf
          (Delve lib c d pod container input args delveContinue host port vscode w).2.trace
        = argsQueriesOf w.trace ∧
      (Delve lib c d pod container input args delveContinue host port vscode w).1 = ("", none)) ∧
    (args = [] →
      argsQueriesOf
          (Delve lib c d pod container input args delveContinue host port vscode w).2.trace
        = argsQueriesOf w.trace ++ [argsQuery d pod container] ∧
      (∀ eff, injectedArguments lib c d pod container
          (sessionStart lib c d pod container input host port w).state = Except.ok eff →
        startsOf (Delve lib c d pod container input args delveContinue host port vscode w).2.trace
          = startsOf w.trace ++ [Cmd.execPod pod container d.ObjectMeta.Namespace
              (remoteCommandSpec d.ObjectMeta.Name port delveContinue eff)] ∧
        (Delve lib c d pod container input args delveContinue host port vscode w).1
          = ("", none)) ∧
      (∀ err, injectedArguments lib c d pod container
          (sessionStart lib c d pod container input host port w).state = Except.error err →
        startsOf (Delve lib c d pod container input args delveContinue host port vscode w).2.trace
          = startsOf w.trace ∧
        (Delve lib c d pod container input args delveContinue host port vscode w).1
          = ("", some err))) := by
  have hp := (deploymentIsPatched_eq_true lib d).2 h
  have hD := Delve_exposed lib c d pod container input args delveContinue host port vscode w hp
    hexposed
  have hs := notExec_observed (notExec_sessionStart lib c d pod container input host port w)
  have hspec := delveCommand_eq_spec d port delveContinue
  refine ⟨hspec, ?_, ?_⟩
  · intro hargs
    have hlen : ¬ args.length = 0 := by
      intro h0
      exact hargs (List.length_eq_zero.1 h0)
    have hsess : delveSession lib c d pod container args delveContinue host port vscode
        (delveSetup lib c d pod container input host port w).2
        = delveExec lib c d pod container args delveContinue host port vscode
            (sessionStart lib c d pod container input host port w) := by
      simp only [delveSession, hlen, if_false, sessionStart]
    have hobs := notExec_observed (notExec_DelveCleanup lib c d pod container _ _
      (delveExec_observed lib c d pod container args delveContinue host port vscode
        (sessionStart lib c d pod container input host port w)))
    rw [hD, hsess]
    refine ⟨?_, ?_, ?_⟩
    · rw [hobs.1, startsOf_append, hs.1, hspec]
      rfl
    · rw [hobs.2]
      simp only [argsQueriesOf, List.filter_append] at hs ⊢
      rw [hs.2]
      simp [isArgsQuery]
    · simp [delveExec]
  · intro hargs
    subst hargs
    have hq := getArgsFromPod_injected lib c d pod container
      (sessionStart lib c d pod container input host port w)
    have hqtrace : (perform c (argsQuery d pod container)
        (sessionStart lib c d pod container input host port w)).2.trace
        = (sessionStart lib c d pod container input host port w).trace
          ++ [argsQuery d pod container] := rfl
    have hquery : argsQueriesOf ((sessionStart lib c d pod container input host port w).trace
        ++ [argsQuery d pod container]) = argsQueriesOf w.trace ++ [argsQuery d pod container] := by
      have := hs.2
      simp only [argsQueriesOf, List.filter_append] at this ⊢
      rw [this]
      simp [argsQuery, isArgsQuery]
    have hstarts : startsOf ((sessionStart lib c d pod container input host port w).trace
        ++ [argsQuery d pod container]) = startsOf w.trace := by
      rw [startsOf_append, hs.1]
      simp [argsQuery, startsOf]
    cases hinj : injectedArguments lib c d pod container
        (sessionStart lib c d pod container input host port w).state with
    | error err =>
      have hr := hq.2.2 err hinj
      have hsess : delveSession lib c d pod container [] delveContinue host port vscode
          (delveSetup lib c d pod container input host port w).2
          = (("", some err), (perform c (argsQuery d pod container)
              (sessionStart lib c d pod container input host port w)).2) := by
        have h1 : (getArgsFromPod lib c d.ObjectMeta.Namespace pod container
            (sessionStart lib c d pod container input host port w)).1.2 = some err := by
          rw [hr]
        simp only [sessionStart] at h1 hq
        simp only [delveSession, List.length_nil, if_true, h1, hq.1, sessionStart]
      have hobs := notExec_observed (notExec_DelveCleanup lib c d pod container
        (perform c (argsQuery d pod container)
          (sessionStart lib c d pod container input host port w)).2 _ (Ext.refl _ _))
      rw [hD, hsess]
      refine ⟨?_, ?_, ?_⟩
      · rw [hobs.2, hqtrace, hquery]
      · intro eff heff
        cases heff
      · intro e he
        cases he
        refine ⟨?_, rfl⟩
        rw [hobs.1, hqtrace, hstarts]
    | ok eff =>
      have hr := hq.2.1 eff hinj
      have hsess : delveSession lib c d pod container [] delveContinue host port vscode
          (delveSetup lib c d pod container input host port w).2
          = delveExec lib c d pod container eff delveContinue host port vscode
              (perform c (argsQuery d pod container)
                (sessionStart lib c d pod container input host port w)).2 := by
        have h1 : (getArgsFromPod lib c d.ObjectMeta.Namespace pod container
            (sessionStart lib c d pod container input host port w)).1.2 = none := by
          rw [hr]
        have h2 : (getArgsFromPod lib c d.ObjectMeta.Namespace pod container
            (sessionStart lib c d pod container input host port w)).1.1 = eff := by
          rw [hr]
        simp only [sessionStart] at h1 h2 hq
        simp only [delveSession, List.length_nil, if_true, h1, h2, hq.1, sessionStart]
      have hobs := notExec_observed (notExec_DelveCleanup lib c d pod container _ _
        (delveExec_observed lib c d pod container eff delveContinue host port vscode
          (perform c (argsQuery d pod container)
            (sessionStart lib c d pod container input host port w)).2))
      rw [hD, hsess]
      refine ⟨?_, ?_, ?_⟩
      · rw [hobs.2, hqtrace]
        simp only [argsQueriesOf, List.filter_append] at hquery ⊢
        rw [hquery]
        simp [isArgsQuery]
      · intro e he
        cases he
        refine ⟨?_, by simp [delveExec]⟩
        rw [hobs.1, hqtrace, startsOf_append, hstarts, hspec]
        rfl
      · intro e he
        cases he

/-- C11, witness: on the sample patched deployment, without arguments from the
caller and with the continue flag set, `Delve` reads `--port=80` back from the
pod and starts `dlv exec /api ... --continue -- --port=80` once. -/
theorem Delve_remote_command_witness :
    startsOf (Delve oneLineLib argsInPod patchedDeployment "api-1" "app" "./cmd/api" [] true
        "127.0.0.1" 2345 false World.init).2.trace
      = [Cmd.execPod "api-1" "app" "default"
          ["dlv", "exec", "/api", "--api-version=2", "--headless", "--listen=:2345",
            "--accept-multiclient", "--continue", "--", "--port=80"]] :=
  ((Delve_remote_command oneLineLib argsInPod patchedDeployment "api-1" "app" "./cmd/api" [] true
    "127.0.0.1" 2345 false World.init (by decide) (by decide)).2.2 rfl).2.1 ["--port=80"] rfl
    |>.1

/-! ## Patch: the order of the steps -/

theorem answers_append (c : Collab σ) (s : σ) (a b : List Action) :
    answers c s (a ++ b) = answers c s a ++ answers c (stateAfter c s a) b := by
  induction a generalizing s with
  | nil => rfl
  | cons x t ih =>
    by_cases hx : isLog x = true
    · simp [answers, stateAfter, hx, ih]
    · simp [answers, stateAfter, hx, ih]

theorem stateAfter_append (c : Collab σ) (s : σ) (a b : List Action) :
    stateAfter c s (a ++ b) = stateAfter c (stateAfter c s a) b := by
  induction a generalizing s with
  | nil => rfl
  | cons x t ih =>
    by_cases hx : isLog x = true
    · simp [stateAfter, hx, ih]
    · simp [stateAfter, hx, ih]

theorem stepsOf_append (a b : List Action) : stepsOf (a ++ b) = stepsOf a ++ stepsOf b := by
  simp [stepsOf, List.filterMap_append]

theorem mem_answers_of_mem (c : Collab σ) (s : σ) (acts : List Action) (b : Action)
    (hb : b ∈ acts) : ∃ e, (b, e) ∈ answers c s acts := by
  induction acts generalizing s with
  | nil => simp at hb
  | cons x t ih =>
    rcases List.mem_cons.1 hb with h1 | h1
    · subst h1
      by_cases hx : isLog b = true
      · exact ⟨none, by simp [answers, hx]⟩
      · exact ⟨(c.respond b s).1.2, by simp [answers, hx]⟩
    · by_cases hx : isLog x = true
      · obtain ⟨e, he⟩ := ih s h1
        exact ⟨e, by simp [answers, hx, he]⟩
      · obtain ⟨e, he⟩ := ih (c.respond x s).2 h1
        exact ⟨e, by simp [answers, hx, he]⟩

theorem apply_after_rollout (k : Nat) (h : PatchStep.apply ∈ patchOrder.take (k + 1)) :
    PatchStep.waitRollout ∈ patchOrder.take k := by
  match k, h with
  | 0, h => simp [patchOrder] at h
  | 1, h => simp [patchOrder] at h
  | 2, h => simp [patchOrder] at h
  | 3, h => simp [patchOrder] at h
  | 4, h => simp [patchOrder] at h
  | k + 5, _ => simp [patchOrder]

theorem Progress.init (c : Collab σ) (w : World σ) : Progress c 0 w w :=
  ⟨[], by simp, rfl, by simp [answers], by simp [stepsOf]⟩

theorem Progress.log {c : Collab σ} {k : Nat} {w0 w : World σ} (level msg : String)
    (h : Progress c k w0 w) : Progress c k w0 (logf level msg w) := by
  obtain ⟨acts, h1, h2, h3, h4⟩ := h
  refine ⟨acts ++ [Action.log level msg], by simp [logf, h1], ?_, ?_, ?_⟩
  · simp [logf, h2, stateAfter_append, stateAfter, isLog]
  · intro p hp
    rw [answers_append] at hp
    rcases List.mem_append.1 hp with hp | hp
    · exact h3 p hp
    · simp [answers, isLog] at hp
      rw [hp]
  · rw [stepsOf_append, h4]
    simp [stepsOf, stepOf]

theorem Progress.step {c : Collab σ} {k : Nat} {w0 w : World σ} (a : Action)
    (h : Progress c k w0 w) (hok : (perform c a w).1.2 = none) (hlog : isLog a = false)
    (hstep : patchOrder[k]? = stepOf a) (hsome : (stepOf a).isSome = true) :
    Progress c (k + 1) w0 (perform c a w).2 := by
  obtain ⟨acts, h1, h2, h3, h4⟩ := h
  refine ⟨acts ++ [a], by simp [perform, h1], ?_, ?_, ?_⟩
  · simp [perform, h2, stateAfter_append, stateAfter, hlog]
  · intro p hp
    rw [answers_append] at hp
    rcases List.mem_append.1 hp with hp | hp
    · exact h3 p hp
    · simp only [answers, hlog, Bool.false_eq_true, if_false, List.mem_singleton] at hp
      rw [hp]
      simpa [perform, h2] using hok
  · obtain ⟨st, hst⟩ := Option.isSome_iff_exists.1 hsome
    rw [hst] at hstep
    rw [stepsOf_append, h4, List.take_succ, hstep]
    simp [stepsOf, hst]

theorem Progress.stepRun {c : Collab σ} {k : Nat} {w0 w : World σ} (cmd : Cmd)
    (h : Progress c k w0 w) (hok : (run c cmd w).1.2 = none)
    (hstep : patchOrder[k]? = stepOf (Action.run cmd))
    (hsome : (stepOf (Action.run cmd)).isSome = true) :
    Progress c (k + 1) w0 (run c cmd w).2 :=
  Progress.step (Action.run cmd) h hok rfl hstep hsome

theorem rollout_answered (c : Collab σ) (s : σ) (acts : List Action)
    (h3 : ∀ p ∈ answers c s acts, p.2 = none)
    (h : PatchStep.waitRollout ∈ stepsOf acts) :
    ∃ b, stepOf b = some PatchStep.waitRollout ∧ (b, none) ∈ answers c s acts := by
  obtain ⟨b, hb, hst⟩ := List.mem_filterMap.1 h
  obtain ⟨e, he⟩ := mem_answers_of_mem c s acts b hb
  have := h3 _ he
  simp only at this
  subst this
  exact ⟨b, hst, he⟩

theorem FailFast.fail {c : Collab σ} {k : Nat} {w0 w : World σ} (a : Action) (err : String)
    (h : Progress c k w0 w) (hfail : (perform c a w).1.2 = some err) (hlog : isLog a = false)
    (hstep : patchOrder[k]? = stepOf a) (hsome : (stepOf a).isSome = true) :
    FailFast c w0 (perform c a w).2 (some err) := by
  obtain ⟨acts, h1, h2, h3, h4⟩ := h
  obtain ⟨st, hst⟩ := Option.isSome_iff_exists.1 hsome
  rw [hst] at hstep
  have hsteps : stepsOf (acts ++ [a]) = patchOrder.take (k + 1) := by
    rw [stepsOf_append, h4, List.take_succ, hstep]
    simp [stepsOf, hst]
  have hans : answers c w0.state (acts ++ [a]) = answers c w0.state acts ++ [(a, some err)] := by
    rw [answers_append]
    simp only [answers, hlog, Bool.false_eq_true, if_false]
    have : (c.respond a (stateAfter c w0.state acts)).1.2 = some err := by
      simpa [perform, h2] using hfail
    rw [this]
  refine ⟨acts ++ [a], by simp [perform, h1],
    by simp [perform, h2, stateAfter_append, stateAfter, hlog], ?_, ?_, ?_, ?_, ?_, ?_⟩
  · rw [hsteps]
    exact List.take_prefix _ _
  · rw [hans]
    simp
  · rw [hans]
    simpa using h3
  · intro p hp
    rw [hans] at hp
    simp at hp
    rw [← hp]
  · intro h
    cases h
  · intro x hx hxs
    have hmem : PatchStep.apply ∈ stepsOf (acts ++ [a]) :=
      List.mem_filterMap.2 ⟨x, hx, hxs⟩
    rw [hsteps] at hmem
    have := apply_after_rollout k hmem
    rw [← h4] at this
    obtain ⟨b, hb1, hb2⟩ := rollout_answered c w0.state acts h3 this
    exact ⟨b, hb1, by rw [hans]; exact List.mem_append_left _ hb2⟩

theorem FailFast.failRun {c : Collab σ} {k : Nat} {w0 w : World σ} (cmd : Cmd) (err : String)
    (h : Progress c k w0 w) (hfail : (run c cmd w).1.2 = some err)
    (hstep : patchOrder[k]? = stepOf (Action.run cmd))
    (hsome : (stepOf (Action.run cmd)).isSome = true) :
    FailFast c w0 (run c cmd w).2 (some err) :=
  FailFast.fail (Action.run cmd) err h hfail rfl hstep hsome

theorem FailFast.done {c : Collab σ} {w0 w : World σ} (h : Progress c 10 w0 w) :
    FailFast c w0 w none := by
  obtain ⟨acts, h1, h2, h3, h4⟩ := h
  have hsteps : stepsOf acts = patchOrder := by
    rw [h4]
    simp [patchOrder]
  have hroll : PatchStep.waitRollout ∈ stepsOf acts := by
    rw [hsteps]
    simp [patchOrder]
  obtain ⟨b, hb1, hb2⟩ := rollout_answered c w0.state acts h3 hroll
  refine ⟨acts, h1, h2, ?_, ?_, ?_, ?_, ?_, ?_⟩
  · rw [hsteps]
  · exact List.ne_nil_of_mem hb2
  · intro p hp
    exact h3 p (List.mem_of_mem_dropLast hp)
  · intro p hp
    exact (h3 p (List.mem_of_getLast?_eq_some hp)).symm
  · intro _
    exact hsteps
  · intro x _ _
    exact ⟨b, hb1, hb2⟩

theorem Progress.render {c : Collab σ} {k : Nat} {w0 w : World σ} (path : String)
    (values : patchValues) (h : Progress c k w0 w)
    (hok : (renderTemplate c path values w).1.2 = none)
    (h1 : patchOrder[k]? = some PatchStep.render)
    (h2 : patchOrder[k + 1]? = some PatchStep.render) :
    Progress c (k + 1 + 1) w0 (renderTemplate c path values w).2 := by
  simp only [renderTemplate] at hok ⊢
  cases hp : (perform c (Action.parseFiles path) w).1.2 with
  | some e => simp [hp] at hok
  | none =>
    cases he : (perform c (Action.executeTemplate path values)
        (perform c (Action.parseFiles path) w).2).1.2 with
    | some e => simp [hp, he] at hok
    | none =>
      simp only [hp, he]
      exact Progress.step _ (Progress.step _ h hp rfl h1 rfl) he rfl h2 rfl

theorem FailFast.failRender {c : Collab σ} {k : Nat} {w0 w : World σ} (path : String)
    (values : patchValues) (err : String) (h : Progress c k w0 w)
    (hfail : (renderTemplate c path values w).1.2 = some err)
    (h1 : patchOrder[k]? = some PatchStep.render)
    (h2 : patchOrder[k + 1]? = some PatchStep.render) :
    FailFast c w0 (renderTemplate c path values w).2 (some err) := by
  simp only [renderTemplate] at hfail ⊢
  cases hp : (perform c (Action.parseFiles path) w).1.2 with
  | some e =>
    simp only [hp, Option.some.injEq] at hfail ⊢
    subst hfail
    exact FailFast.fail _ _ h hp rfl h1 rfl
  | none =>
    cases he : (perform c (Action.executeTemplate path values)
        (perform c (Action.parseFiles path) w).2).1.2 with
    | some e =>
      simp only [hp, he, Option.some.injEq] at hfail ⊢
      subst hfail
      exact FailFast.fail _ _ (Progress.step _ h hp rfl h1 rfl) he rfl h2 rfl
    | none => simp [hp, he] at hfail

theorem Progress.copyArgs {c : Collab σ} {k : Nat} {w0 w : World σ} (lib : Lib)
    (d : Deployment) (pod container : String) (h : Progress c k w0 w)
    (hok : (copyArgsToPod lib c d pod container w).1 = none)
    (h1 : patchOrder[k]? = some PatchStep.copyArgs)
    (h2 : patchOrder[k + 1]? = some PatchStep.copyArgs) :
    Progress c (k + 1 + 1) w0 (copyArgsToPod lib c d pod container w).2 := by
  simp only [copyArgsToPod] at hok ⊢
  cases hp : (perform c (Action.generateYaml (lib.pathJoin [lib.tempDir, "args.yaml"])
      (findArgs container d.Spec.Template.Spec.Containers)) w).1.2 with
  | some e => simp [hp] at hok
  | none =>
    cases he : (run c (Cmd.copyToPod pod container d.ObjectMeta.Namespace
        (lib.pathJoin [lib.tempDir, "args.yaml"]) "/args.yaml")
        (perform c (Action.generateYaml (lib.pathJoin [lib.tempDir, "args.yaml"])
          (findArgs container d.Spec.Template.Spec.Containers)) w).2).1.2 with
    | some e => simp [hp, he] at hok
    | none =>
      simp only [hp, he]
      exact Progress.stepRun _ (Progress.step _ h hp rfl h1 rfl) he h2 rfl

theorem FailFast.failCopyArgs {c : Collab σ} {k : Nat} {w0 w : World σ} (lib : Lib)
    (d : Deployment) (pod container : String) (err : String) (h : Progress c k w0 w)
    (hfail : (copyArgsToPod lib c d pod container w).1 = some err)
    (h1 : patchOrder[k]? = some PatchStep.copyArgs)
    (h2 : patchOrder[k + 1]? = some PatchStep.copyArgs) :
    FailFast c w0 (copyArgsToPod lib c d pod container w).2 (some err) := by
  simp only [copyArgsToPod] at hfail ⊢
  cases hp : (perform c (Action.generateYaml (lib.pathJoin [lib.tempDir, "args.yaml"])
      (findArgs container d.Spec.Template.Spec.Containers)) w).1.2 with
  | some e =>
    simp only [hp, Option.some.injEq] at hfail ⊢
    subst hfail
    exact FailFast.fail _ _ h hp rfl h1 rfl
  | none =>
    cases he : (run c (Cmd.copyToPod pod container d.ObjectMeta.Namespace
        (lib.pathJoin [lib.tempDir, "args.yaml"]) "/args.yaml")
        (perform c (Action.generateYaml (lib.pathJoin [lib.tempDir, "args.yaml"])
          (findArgs container d.Spec.Template.Spec.Containers)) w).2).1.2 with
    | some e =>
      simp only [hp, he, Option.some.injEq] at hfail ⊢
      subst hfail
      exact FailFast.failRun _ _ (Progress.step _ h hp rfl h1 rfl) he h2 rfl
    | none => simp [hp, he] at hfail

theorem patchSteps_failFast (lib : Lib) (c : Collab σ) (d : Deployment)
    (container image tag hostPath : String) (w : World σ) :
    FailFast c w (patchSteps lib c d container image tag hostPath w).2
      (patchSteps lib c d container image tag hostPath w).1.2 := by
  simp only [patchSteps, buildDummy]
  repeat' split
  all_goals
    first
      | apply FailFast.done
      | apply FailFast.failCopyArgs
      | apply FailFast.failRender
      | apply FailFast.failRun
      | apply FailFast.fail
  all_goals
    repeat first
      | exact Progress.init _ _
      | apply Progress.log
      | apply Progress.copyArgs
      | apply Progress.render
      | apply Progress.stepRun
      | apply Progress.step
  all_goals first | assumption | rfl

/-- C12: on a deployment without the patch marker, the actions `Patch` issues
go through the steps in the fixed order extract, build, render, wait for the
rollout, apply the patch, resolve the pod, wait for the pod, copy the
arguments, and stop at the first failure: their steps are a beginning of the
fixed order; every action but the last was answered without error; the error
`Patch` returns is the answer to the last action, so a failed step is the last
one attempted and makes `Patch` fail; when `Patch` succeeds, all the steps were
taken and every action was answered without error; and a patch is applied
only when the wait for the rollout was answered without error. -/
theorem Patch_steps_in_order (lib : Lib) (c : Collab σ) (d : Deployment)
    (container image tag hostPath : String) (w : World σ)
    (h : lib.defaultPatchedLabel ∉ keysOf (podTemplateLabels d)) :
    (Patch lib c d container image tag hostPath w).2.trace
      = w.trace ++ issued w (Patch lib c d container image tag hostPath w).2 ∧
    (Patch lib c d container image tag hostPath w).2.state
      = stateAfter c w.state (issued w (Patch lib c d container image tag hostPath w).2) ∧
    stepsOf (issued w (Patch lib c d container image tag hostPath w).2) <+: patchOrder ∧
    answers c w.state (issued w (Patch lib c d container image tag hostPath w).2) ≠ [] ∧
    (∀ p ∈ (answers c w.state
        (issued w (Patch lib c d container image tag hostPath w).2)).dropLast, p.2 = none) ∧
    (∀ p, (answers c w.state
        (issued w (Patch lib c d container image tag hostPath w).2)).getLast? = some p →
      (Patch lib c d container image tag hostPath w).1.2 = p.2) ∧
    ((Patch lib c d container image tag hostPath w).1.2 = none →
      stepsOf (issued w (Patch lib c d container image tag hostPath w).2) = patchOrder ∧
      ∀ p ∈ answers c w.state (issued w (Patch lib c d container image tag hostPath w).2),
        p.2 = none) ∧
    (∀ a ∈ issued w (Patch lib c d container image tag hostPath w).2,
      stepOf a = some PatchStep.apply →
      ∃ b, stepOf b = some PatchStep.waitRollout ∧
        (b, none) ∈ answers c w.state
          (issued w (Patch lib c d container image tag hostPath w).2)) := by
  have hp := deploymentIsPatched_eq_false lib d h
  have hP : Patch lib c d container image tag hostPath w
      = patchSteps lib c d container image tag hostPath w := by
    simp [Patch, hp]
  obtain ⟨acts, h1, h2, h3, h4, h5, h6, h7, h8⟩ :=
    patchSteps_failFast lib c d container image tag hostPath w
  have hi : issued w (patchSteps lib c d container image tag hostPath w).2 = acts := by
    simp [issued, h1]
  rw [hP, hi]
  refine ⟨h1, h2, h3, h4, h5, h6, ?_, h8⟩
  intro hnone
  refine ⟨h7 hnone, ?_⟩
  intro p hp
  obtain ⟨l, hl⟩ : ∃ l, (answers c w.state acts).getLast? = some l := by
    cases hg : (answers c w.state acts).getLast? with
    | none => exact absurd (List.getLast?_eq_none_iff.1 hg) h4
    | some l => exact ⟨l, rfl⟩
  have hsplit : (answers c w.state acts).dropLast ++ [l] = answers c w.state acts :=
    List.dropLast_append_getLast? l (by simp [hl])
  rw [← hsplit] at hp
  rcases List.mem_append.1 hp with hp | hp
  · exact h5 p hp
  · have : p = l := by simpa using hp
    rw [this, ← h6 l hl, hnone]

/-- C12, witness: on the sample deployment without the marker, with
collaborators that all succeed, `Patch` succeeds and has taken all the steps,
in the fixed order. -/
theorem Patch_steps_in_order_witness :
    stepsOf (issued World.init
        (Patch sampleLib allSucceed unpatchedDeployment "app" "api" "dbg" "/src" World.init).2)
      = patchOrder :=
  ((Patch_steps_in_order sampleLib allSucceed unpatchedDeployment "app" "api" "dbg" "/src"
    World.init (by decide)).2.2.2.2.2.2.1 (by decide)).1

end Configurd
